import Mathlib

/-!
# EC key-matrix scan driver (`drivers/kscan/zmk_kscan_ec_matrix.c`)

A shallow embedding of the driver's single-cell read, sampler, normaliser,
calibrator, scan loop, cadence governor and configuration entry point, followed
by theorems about them.

Conventions of the embedding.

* `uint16_t`, `uint32_t` and `uint64_t` values are natural numbers; every
  conversion the C code performs is written out with `u16` / `u32`.  Arithmetic
  that C carries out in `int` is carried out in `Int`.
* The ADC is an input stream (`List Nat`): every call of
  `read_raw_matrix_state` consumes the head of the stream.  When the stream is
  exhausted the read yields `0`, which is what the C function returns when
  `adc_read` fails (its buffer is initialised to `0`).
* C arrays indexed by a strobe or by a flat cell index are functions on `Nat`.
* A state word (`rows[s]`, `matrix_state[s]`, `reported_matrix_state[s]`) is a
  natural number whose bit `r` belongs to input `r`.  The C code addresses the
  bit with `BIT(r)`, an `unsigned long`, in 64-bit words and 32-bit masks, so the
  embedding is exact for matrices of at most 32 inputs; no operation of the scan
  loop overflows a word there.
* The product `UINT16_MAX * (val - avg_low)` of `normalize` is formed in `int`
  and converted to `uint32_t`: it is the mathematical product modulo `2^32`.
* Undefined behaviour (an integer division by zero) is the result `none`.
* The calls a function makes to `read_raw_matrix_state`, to the key callback
  and to the calibration callback are recorded, in order, in a trace.
-/

namespace EcMatrix

/-! ## Machine integers and the Zephyr helper macros -/

/-- Conversion of a C integer value to `uint16_t`. -/
def u16 (x : Int) : Nat := (x % 65536).toNat

/-- Conversion of a C integer value to `uint32_t`. -/
def u32 (x : Int) : Nat := (x % 4294967296).toNat

/-- The Zephyr macro `MAX(a, b)`, which is `(((a) > (b)) ? (a) : (b))`. -/
def MAX (a b : Nat) : Nat := if a > b then a else b

/-- The Zephyr macro `MIN(a, b)`, which is `(((a) < (b)) ? (a) : (b))`. -/
def MIN (a b : Nat) : Nat := if a < b then a else b

/-- The Zephyr macro `BIT(n)`, which is `(1UL << (n))`. -/
def BIT (n : Nat) : Nat := 2 ^ n

/-- The Zephyr macro `WRITE_BIT(var, bit, set)`, which is
`((var) = (set) ? ((var) | BIT(bit)) : ((var) & ~BIT(bit)))`.  Clearing a bit
with `& ~BIT(bit)` is written as removing the bit when it is present. -/
def WRITE_BIT (var bit : Nat) (set : Bool) : Nat :=
  if set then var ||| BIT bit else var ^^^ (var &&& BIT bit)

/-- The constant `UINT16_MAX`. -/
def UINT16_MAX : Nat := 65535

/-- The constant `SAMPLE_COUNT`. -/
def SAMPLE_COUNT : Nat := 20

/-! ## Hardware gateway: the value returned by one read -/

/-- The value part of `read_raw_matrix_state`: the function returns its
`int16_t` buffer, initialised to `0` and filled by `adc_read`, converted to
`uint16_t`.  The head of the ADC stream is the conversion result; an exhausted
stream leaves the buffer at `0`.  The result is the value and the rest of the
stream. -/
def read_raw_matrix_state (adc : List Nat) : Nat × List Nat :=
  match adc with
  | [] => (0, [])
  | v :: rest => (u16 (v : Int), rest)

/-! ## Sampler -/

/-- The struct `sample_results`. -/
structure sample_results where
  min : Nat
  max : Nat
  avg : Nat
  noise : Nat
deriving DecidableEq, Repr

/-- The loop state of `sample`: the locals `min`, `max`, `avg` and the ADC
stream. -/
structure SampleState where
  min : Nat
  max : Nat
  avg : Nat
  adc : List Nat
deriving DecidableEq, Repr

/-- One iteration of the loop of `sample`, with loop counter `sample`. -/
def sample_step (st : SampleState) (sample : Nat) : SampleState :=
  let (val, adc) := read_raw_matrix_state st.adc
  if sample = 0 then
    { min := val, max := val, avg := val, adc := adc }
  else
    { max := MAX val st.max
      min := MIN val st.min
      avg := u16 ((((st.avg : Int) * (sample : Int)) + (val : Int)) / ((sample : Int) + 1))
      adc := adc }

/-- The loop of `sample` run for `n` iterations from `min = max = avg = 0`. -/
def sample_loop (n : Nat) (adc : List Nat) : SampleState :=
  (List.range n).foldl sample_step { min := 0, max := 0, avg := 0, adc := adc }

/-- The function `sample`: `SAMPLE_COUNT` reads of one cell, summarised.  The
result is the summary and the rest of the ADC stream. -/
def sample (adc : List Nat) : sample_results × List Nat :=
  let st := sample_loop SAMPLE_COUNT adc
  ({ min := st.min, max := st.max, avg := st.avg,
     noise := u16 ((st.max : Int) - (st.min : Int)) }, st.adc)

/-! ## Normaliser and thresholds -/

/-- The function `normalize`.  The product `UINT16_MAX * (val - avg_low)` is
formed in `int` and converted to `uint32_t`; the quotient is converted to
`uint16_t`.  A zero denominator is a division by zero: `none`. -/
def normalize (val avg_low avg_high : Nat) : Option Nat :=
  let val := MAX val avg_low
  let val := MIN val avg_high
  let numerator := u32 ((UINT16_MAX : Int) * ((val : Int) - (avg_low : Int)))
  let denominator := u16 ((avg_high : Int) - (avg_low : Int))
  if denominator = 0 then none
  else some (u16 ((numerator / denominator : Nat) : Int))

/-- Modelled from the spec: the struct `zmk_kscan_ec_matrix_calibration_entry`
of the header `zmk_kscan_ec_matrix.h`, which is not part of the sources at
hand.  The three fields are unsigned 16-bit ADC quantities. -/
structure CalibrationEntry where
  avg_low : Nat
  avg_high : Nat
  noise : Nat
deriving DecidableEq, Repr

/-- The local `range` of the scan loop: `avg_high - avg_low` as `uint32_t`. -/
def range (c : CalibrationEntry) : Nat :=
  u32 ((c.avg_high : Int) - (c.avg_low : Int))

/-- The local `press_limit_raw` of the scan loop, a `uint16_t`. -/
def press_limit_raw (c : CalibrationEntry) (trigger_percentage : Nat) : Nat :=
  u16 ((c.avg_high : Int) -
    (u16 ((MAX (u32 ((range c : Int) * (trigger_percentage : Int)) / 100) c.noise : Nat) : Int) : Int))

/-- The local `hys_buffer` of the scan loop, a `uint16_t`. -/
def hys_buffer (c : CalibrationEntry) : Nat :=
  u16 ((MAX (range c / 8) c.noise : Nat) : Int)

/-- The local `press_limit` of the scan loop. -/
def press_limit (c : CalibrationEntry) (trigger_percentage : Nat) : Option Nat :=
  normalize (press_limit_raw c trigger_percentage) c.avg_low c.avg_high

/-- The local `release_limit` of the scan loop; the argument
`press_limit_raw - hys_buffer` is an `int` converted to `uint16_t`. -/
def release_limit (c : CalibrationEntry) (trigger_percentage : Nat) : Option Nat :=
  normalize (u16 ((press_limit_raw c trigger_percentage : Int) - (hys_buffer c : Int)))
    c.avg_low c.avg_high

/-! ## Device configuration and data -/

/-- The fields of `struct kscan_ec_matrix_config` read by the modelled
functions.  `strobe_input_masks` is `none` for a null pointer;
`adc_resolution` is `adc_channel.resolution`; `drain_port` says whether
`drain.port` is not null; `fake_open_drain` is the build option
`CONFIG_ZMK_KSCAN_EC_MATRIX_FAKE_OPEN_DRAIN`. -/
structure Config where
  strobes_len : Nat
  inputs_len : Nat
  trigger_percentage : Nat
  strobe_input_masks : Option (Nat → Nat) := none
  adc_resolution : Nat := 12
  active_polling_interval_ms : Nat := 1
  idle_polling_interval_ms : Nat := 5
  sleep_polling_interval_ms : Nat := 500
  idle_after_secs : Nat := 5
  sleep_after_secs : Nat := 300
  dynamic_polling_interval : Bool := false
  matrix_relax_us : Nat := 0
  adc_read_settle_us : Nat := 0
  drain_port : Bool := false
  fake_open_drain : Bool := false

/-- The fields of `struct kscan_ec_matrix_data` read or written by the modelled
functions.  A callback pointer is `none` when null. -/
structure Data where
  callback : Option Nat
  calibrations : Nat → CalibrationEntry
  reported_matrix_state : Nat → Nat
  matrix_state : Nat → Nat
  last_key_released_at : Nat := 0
  poll_interval : Nat := 1
  calibration_callback : Option Nat := none

/-- The function `calibration_entry_for_strobe_input`: the index of the entry
of cell `(strobe, input)` in `data->calibrations`. -/
def calibration_index (cfg : Config) (strobe input : Nat) : Nat :=
  (strobe * cfg.inputs_len) + input

/-- The entry that `calibration_entry_for_strobe_input` points to. -/
def calibration_entry_for_strobe_input (cfg : Config) (data : Data) (strobe input : Nat) :
    CalibrationEntry :=
  data.calibrations (calibration_index cfg strobe input)

/-- The test `cfg->strobe_input_masks && (cfg->strobe_input_masks[s] & BIT(r)) != 0`. -/
def masked (cfg : Config) (s r : Nat) : Bool :=
  match cfg.strobe_input_masks with
  | none => false
  | some masks => (masks s &&& BIT r) != 0

/-- What a sweep does that is visible outside of the driver data: a call
`read_raw_matrix_state(dev, strobe, input)` with the value it returned, and a
call `data->callback(data->dev, strobe, input, pressed)`. -/
inductive Event where
  | read (strobe input value : Nat)
  | key (strobe input : Nat) (pressed : Bool)
deriving DecidableEq, Repr

/-! ## Loops -/

/-- The loop `for (int i = 0; i < n; i++) body` over a state. -/
def for_range {σ : Type} : Nat → (Nat → σ → σ) → σ → σ
  | 0, _, st => st
  | n + 1, body, st => body n (for_range n body st)

/-- The loop `for (int i = 0; i < n; i++) body` over a state, for a body that
can run into undefined behaviour. -/
def for_range_opt {σ : Type} : Nat → (Nat → σ → Option σ) → σ → Option σ
  | 0, _, st => some st
  | n + 1, body, st => (for_range_opt n body st).bind (body n)

/-! ## Scan loop -/

/-- State of the read phase of a sweep: the scratch array `rows`, the ADC stream
and the trace. -/
structure ScanState where
  rows : Nat → Nat
  adc : List Nat
  trace : List Event

/-- The three-way branch of the scan loop that writes bit `r` of `rows[s]`,
given the word `row = rows[s]`. -/
def decide_cell (row r : Nat) (prev : Bool) (buf press_limit release_limit : Nat) : Nat :=
  if buf > press_limit && !prev then WRITE_BIT row r true
  else if prev && buf < release_limit then WRITE_BIT row r false
  else WRITE_BIT row r prev

/-- The body of the inner loop of the read phase of `kscan_ec_matrix_read` for
input `r` and strobe `s`. -/
def scan_cell (cfg : Config) (data : Data) (r s : Nat) (st : ScanState) : Option ScanState :=
  let calibration := calibration_entry_for_strobe_input cfg data s r
  if calibration.avg_high = 0 then some st
  else if masked cfg s r then some st
  else
    let prev := (data.matrix_state s &&& BIT r) != 0
    let (raw, adc) := read_raw_matrix_state st.adc
    match normalize raw calibration.avg_low calibration.avg_high,
          press_limit calibration cfg.trigger_percentage,
          release_limit calibration cfg.trigger_percentage with
    | some buf, some pl, some rl =>
      some { rows := Function.update st.rows s (decide_cell (st.rows s) r prev buf pl rl)
             adc := adc
             trace := st.trace ++ [Event.read s r raw] }
    | _, _, _ => none

/-- The read phase of `kscan_ec_matrix_read`: `rows` cleared, then inputs in the
outer loop and strobes in the inner loop. -/
def scan_rows (cfg : Config) (data : Data) (adc : List Nat) : Option ScanState :=
  for_range_opt cfg.inputs_len
    (fun r st => for_range_opt cfg.strobes_len (scan_cell cfg data r) st)
    { rows := fun _ => 0, adc := adc, trace := [] }

/-- State of the first loop after the read phase: the array `diffs` and
`data->matrix_state`. -/
structure LatchState where
  diffs : Nat → Nat
  matrix_state : Nat → Nat

/-- The body of the loop that fills `diffs` and stores `rows` into
`data->matrix_state`. -/
def latch_step (rows : Nat → Nat) (s : Nat) (st : LatchState) : LatchState :=
  { diffs := Function.update st.diffs s (rows s &&& st.matrix_state s)
    matrix_state := Function.update st.matrix_state s (rows s) }

/-- State of the reporting loop: `data->reported_matrix_state`, the flags
`have_change` and `have_keys`, and the trace. -/
structure ReportState where
  reported_matrix_state : Nat → Nat
  have_change : Bool
  have_keys : Bool
  trace : List Event

/-- The body of the inner reporting loop for strobe `s` and input `r`. -/
def report_bit (callback : Option Nat) (diff s r : Nat) (st : ReportState) : ReportState :=
  if (st.reported_matrix_state s &&& BIT r) != (diff &&& BIT r) then
    { st with
      have_change := true
      trace := if callback.isSome then st.trace ++ [Event.key s r ((diff &&& BIT r) != 0)]
               else st.trace }
  else st

/-- The body of the outer reporting loop for strobe `s`. -/
def report_strobe (cfg : Config) (callback : Option Nat) (diffs : Nat → Nat) (s : Nat)
    (st : ReportState) : ReportState :=
  let diff := diffs s
  let st1 := for_range cfg.inputs_len (report_bit callback diff s) st
  { st1 with
    reported_matrix_state := Function.update st1.reported_matrix_state s diff
    have_keys := st1.have_keys || (diff != 0) }

/-- What a sweep leaves behind: the driver data, the rest of the ADC stream and
the trace of the sweep. -/
structure SweepResult where
  data : Data
  adc : List Nat
  trace : List Event

/-- The part of `kscan_ec_matrix_read` after the read phase: confirmation of
`rows` against `matrix_state`, reporting, and the update of
`last_key_released_at`.  `now` is the value `k_uptime_get()` returns. -/
def confirm_and_report (cfg : Config) (data : Data) (now : Nat) (st : ScanState) : SweepResult :=
  let l := for_range cfg.strobes_len (latch_step st.rows)
    { diffs := fun _ => 0, matrix_state := data.matrix_state }
  let rp := for_range cfg.strobes_len (report_strobe cfg data.callback l.diffs)
    { reported_matrix_state := data.reported_matrix_state
      have_change := false, have_keys := false, trace := st.trace }
  let last_key_released_at :=
    if rp.have_change then (if rp.have_keys then 0 else u32 (now : Int))
    else data.last_key_released_at
  { data := { data with
                matrix_state := l.matrix_state
                reported_matrix_state := rp.reported_matrix_state
                last_key_released_at := last_key_released_at }
    adc := st.adc
    trace := rp.trace }

/-- The function `kscan_ec_matrix_read`: one sweep.  `adc` is the ADC stream and
`now` the uptime at the end of the sweep. -/
def kscan_ec_matrix_read (cfg : Config) (data : Data) (adc : List Nat) (now : Nat) :
    Option SweepResult :=
  (scan_rows cfg data adc).map (confirm_and_report cfg data now)

/-- A run of sweeps, one for each uptime in `nows`, each on the data and the ADC
stream left by the one before; the traces are concatenated. -/
def run_sweeps (cfg : Config) : Data → List Nat → List Nat → Option SweepResult
  | data, adc, [] => some { data := data, adc := adc, trace := [] }
  | data, adc, now :: nows =>
    match kscan_ec_matrix_read cfg data adc now with
    | none => none
    | some r1 =>
      match run_sweeps cfg r1.data r1.adc nows with
      | none => none
      | some r2 => some { r2 with trace := r1.trace ++ r2.trace }

/-! ## Calibrator -/

/-- Modelled from the spec: the calibration events of the header
`zmk_kscan_ec_matrix.h`, which is not part of the sources at hand, with the
payload fields that `calibrate` fills in. -/
inductive CalibrationEvent where
  | LOW_SAMPLING_START
  | POSITION_LOW_DETERMINED (low_avg strobe input noise : Nat)
  | HIGH_SAMPLING_START
  | POSITION_COMPLETE (low_avg high_avg snr strobe input noise : Nat)
  | COMPLETE
deriving DecidableEq, Repr

/-- State of `calibrate`: the calibration table, the local `keys_to_complete`,
the ADC stream and the events handed to the calibration callback. -/
structure CalibState where
  calibrations : Nat → CalibrationEntry
  keys_to_complete : Nat
  adc : List Nat
  events : List CalibrationEvent

/-- A call of `data->calibration_callback`, made only when the pointer is not
null. -/
def emit (cb : Option Nat) (events : List CalibrationEvent) (ev : CalibrationEvent) :
    List CalibrationEvent :=
  if cb.isSome then events ++ [ev] else events

/-- The body of the inner loop of the first phase of `calibrate` for strobe `s`
and input `i`: the entry is zeroed, the cell sampled, and `avg_low` and `noise`
stored. -/
def calibrate_low_cell (cfg : Config) (cb : Option Nat) (s i : Nat) (st : CalibState) :
    CalibState :=
  if masked cfg s i then st
  else
    let (low_res, adc) := sample st.adc
    { calibrations := Function.update st.calibrations (calibration_index cfg s i)
        { avg_low := low_res.avg, avg_high := 0, noise := low_res.noise }
      keys_to_complete := u16 ((st.keys_to_complete : Int) + 1)
      adc := adc
      events := emit cb st.events
        (CalibrationEvent.POSITION_LOW_DETERMINED low_res.avg s i low_res.noise) }

/-- The first phase of `calibrate`, up to and including the event
`HIGH_SAMPLING_START`: one read at `(0, 0)` is tossed, then every cell that is
not masked is sampled. -/
def calibrate_low_phase (cfg : Config) (data : Data) (adc : List Nat) : CalibState :=
  let cb := data.calibration_callback
  let st := for_range cfg.strobes_len
    (fun s st => for_range cfg.inputs_len (calibrate_low_cell cfg cb s) st)
    { calibrations := data.calibrations
      keys_to_complete := 0
      adc := (read_raw_matrix_state adc).2
      events := emit cb [] CalibrationEvent.LOW_SAMPLING_START }
  { st with events := emit cb st.events CalibrationEvent.HIGH_SAMPLING_START }

/-- The body of the inner loop of the second phase of `calibrate` for strobe `s`
and input `i`.  The shift `1 << (resolution - 1)` is defined for a resolution of
1 to 31 bits; the quotient that gives `snr` is an `int` division, undefined for
a zero `noise`. -/
def calibrate_high_cell (cfg : Config) (cb : Option Nat) (s i : Nat) (st : CalibState) :
    Option CalibState :=
  if masked cfg s i then some st
  else
    let calibration := st.calibrations (calibration_index cfg s i)
    if calibration.avg_high > 0 then some st
    else if cfg.adc_resolution = 0 ∨ 31 < cfg.adc_resolution then none
    else
      let high_threshold := u16 ((2 ^ (cfg.adc_resolution - 1) : Nat) : Int)
      let (high_check_val, adc1) := read_raw_matrix_state st.adc
      if high_check_val < high_threshold then some { st with adc := adc1 }
      else
        let (high_check_val, adc2) := read_raw_matrix_state adc1
        if high_check_val < high_threshold then some { st with adc := adc2 }
        else
          let (high_res, adc3) := sample adc2
          if calibration.noise = 0 then none
          else
            let snr := u16 (Int.tdiv
              ((high_res.avg : Int) - (calibration.avg_low : Int) + (calibration.noise : Int))
              (calibration.noise : Int))
            let avg_high := high_res.avg
            let noise := MAX calibration.noise high_res.noise
            some
              { calibrations := Function.update st.calibrations (calibration_index cfg s i)
                  { avg_low := calibration.avg_low, avg_high := avg_high, noise := noise }
                keys_to_complete := u16 ((st.keys_to_complete : Int) - 1)
                adc := adc3
                events := emit cb st.events
                  (CalibrationEvent.POSITION_COMPLETE calibration.avg_low avg_high snr s i noise) }

/-- One pass of the body of the `while (keys_to_complete > 0)` loop of
`calibrate`: every strobe, and for each strobe every input. -/
def calibrate_high_pass (cfg : Config) (cb : Option Nat) (st : CalibState) : Option CalibState :=
  for_range_opt cfg.strobes_len
    (fun s st => for_range_opt cfg.inputs_len (calibrate_high_cell cfg cb s) st) st

/-! ## Cadence governor -/

/-- The function `kscan_ec_matrix_update_poll_interval`.  `now` is the value
`k_uptime_get()` returns; the difference is converted to `uint32_t`, the
products `secs * 1000` are `int` values compared as `uint32_t`, and the store
into the `uint16_t` field `poll_interval` is made only when the interval
changes. -/
def kscan_ec_matrix_update_poll_interval (cfg : Config) (data : Data) (now : Nat) : Data :=
  let last_released_at := data.last_key_released_at
  let prev_poll_interval := data.poll_interval
  let new_poll_interval :=
    if last_released_at = 0 then cfg.active_polling_interval_ms
    else
      let ms_since_last_released := u32 ((now : Int) - (last_released_at : Int))
      if ms_since_last_released > u32 ((cfg.sleep_after_secs : Int) * 1000) then
        cfg.sleep_polling_interval_ms
      else if ms_since_last_released > u32 ((cfg.idle_after_secs : Int) * 1000) then
        cfg.idle_polling_interval_ms
      else cfg.active_polling_interval_ms
  if new_poll_interval ≠ prev_poll_interval then
    { data with poll_interval := u16 (new_poll_interval : Int) }
  else data

/-! ## Configuration entry point -/

/-- The error number `EINVAL`. -/
def EINVAL : Int := 22

/-- The function `kscan_ec_matrix_configure`: the return value and the driver
data it leaves.  A null `callback` is `none`. -/
def kscan_ec_matrix_configure (data : Data) (callback : Option Nat) : Int × Data :=
  match callback with
  | none => (-EINVAL, data)
  | some cb => (0, { data with callback := some cb })

/-! ## Hardware gateway: the sequence of actions of one read -/

/-- A GPIO pin of the matrix. -/
inductive Pin where
  | input (i : Nat)
  | strobe (s : Nat)
  | drain
deriving DecidableEq, Repr

/-- The flags that `read_raw_matrix_state` passes to `gpio_pin_configure_dt`. -/
inductive GpioFlags where
  | GPIO_INPUT
  | GPIO_OUTPUT
  | GPIO_DISCONNECTED
deriving DecidableEq, Repr

/-- A call that `read_raw_matrix_state` makes to the kernel or to a device
driver.  The preparation of the ADC sequence struct and the optional timing
counters touch no hardware and are not recorded. -/
inductive HwAction where
  | gpio_pin_configure (pin : Pin) (flags : GpioFlags)
  | gpio_pin_set (pin : Pin) (value : Nat)
  | k_busy_wait (us : Nat)
  | irq_lock
  | irq_unlock
  | adc_read
deriving DecidableEq, Repr

/-- The calls of `read_raw_matrix_state(dev, strobe, input)`, in order. -/
def read_raw_matrix_state_actions (cfg : Config) (strobe input : Nat) : List HwAction :=
  [HwAction.gpio_pin_configure (Pin.input input) GpioFlags.GPIO_INPUT]
  ++ (if cfg.matrix_relax_us > 0 then [HwAction.k_busy_wait cfg.matrix_relax_us] else [])
  ++ [HwAction.irq_lock]
  ++ (if cfg.drain_port then
        (if cfg.fake_open_drain then [HwAction.gpio_pin_configure Pin.drain GpioFlags.GPIO_INPUT]
         else [HwAction.gpio_pin_set Pin.drain 1])
      else [])
  ++ [HwAction.gpio_pin_set (Pin.strobe strobe) 1]
  ++ [HwAction.k_busy_wait cfg.adc_read_settle_us]
  ++ [HwAction.adc_read]
  ++ [HwAction.irq_unlock]
  ++ [HwAction.gpio_pin_set (Pin.strobe strobe) 0]
  ++ (if cfg.drain_port then
        (if cfg.fake_open_drain then [HwAction.gpio_pin_configure Pin.drain GpioFlags.GPIO_OUTPUT]
         else [])
        ++ [HwAction.gpio_pin_set Pin.drain 0]
      else [])
  ++ [HwAction.gpio_pin_configure (Pin.input input) GpioFlags.GPIO_DISCONNECTED]

/-! ## Reference definitions, predicates and scenario data of the statements -/

/-- The value of `normalize` for `avg_low < avg_high`, as the spec writes it. -/
def normalize_ref (v avg_low avg_high : Nat) : Nat :=
  65535 * (min (max v avg_low) avg_high - avg_low) / (avg_high - avg_low)

/-- The value that read number `k` of a run of reads on the stream `adc`
returns. -/
def nth_read (adc : List Nat) (k : Nat) : Nat := (read_raw_matrix_state (adc.drop k)).1

/-- The running integer average of the spec: `mean_0 = v_0` and
`mean_k = (mean_(k-1) * k + v_k) / (k + 1)`, in unbounded arithmetic. -/
def mean_ref (v : Nat → Nat) : Nat → Nat
  | 0 => v 0
  | k + 1 => (mean_ref v k * (k + 1) + v (k + 1)) / (k + 2)

/-- The invariant of the loop of `sample` after iteration `n`, on the stream
`adc`. -/
structure SampleInv (adc : List Nat) (n : Nat) (st : SampleState) : Prop where
  adc_eq : st.adc = adc.drop (n + 1)
  avg_eq : st.avg = mean_ref (nth_read adc) n
  min_le : ∀ k, k ≤ n → st.min ≤ nth_read adc k
  min_mem : ∃ k, k ≤ n ∧ st.min = nth_read adc k
  max_ge : ∀ k, k ≤ n → nth_read adc k ≤ st.max
  max_mem : ∃ k, k ≤ n ∧ st.max = nth_read adc k

/-- Whether an event is a read of cell `(s, r)`. -/
def is_read_of (s r : Nat) : Event → Bool
  | Event.read s1 r1 _ => decide (s1 = s) && decide (r1 = r)
  | Event.key _ _ _ => false

/-- Whether an event is a key callback for cell `(s, r)`. -/
def is_key_of (s r : Nat) : Event → Bool
  | Event.read _ _ _ => false
  | Event.key s1 r1 _ => decide (s1 = s) && decide (r1 = r)

/-- The reads of cell `(s, r)` in a trace, in order. -/
def reads_of (s r : Nat) (trace : List Event) : List Event := trace.filter (is_read_of s r)

/-- The key callbacks for cell `(s, r)` in a trace, in order. -/
def keys_of (s r : Nat) (trace : List Event) : List Event := trace.filter (is_key_of s r)

/-- The key callback that the reporting loop issues for cell `(s, r)` when the
reported word is `rep` and the confirmed word is `diff`. -/
def key_event_for (cb : Option Nat) (rep diff s r : Nat) : List Event :=
  if cb.isSome && (rep.testBit r != diff.testBit r) then [Event.key s r (diff.testBit r)] else []

/-- Whether the scan loop processes cell `(s, r)`: its entry has a non-zero
`avg_high` and the cell is not masked. -/
def scanned (cfg : Config) (data : Data) (s r : Nat) : Bool :=
  decide ((calibration_entry_for_strobe_input cfg data s r).avg_high ≠ 0) && !masked cfg s r

/-- No processed cell of the matrix has a calibration entry whose
`avg_high - avg_low` is zero as a `uint16_t`: the divisions of `normalize` in a
sweep are all defined. -/
def DivSafe (cfg : Config) (data : Data) : Prop :=
  ∀ s r, s < cfg.strobes_len → r < cfg.inputs_len → scanned cfg data s r = true →
    u16 (((calibration_entry_for_strobe_input cfg data s r).avg_high : Int)
      - ((calibration_entry_for_strobe_input cfg data s r).avg_low : Int)) ≠ 0

/-- The state a processed cell leaves, for the normalised reading `buf` and the
limits `pl` and `rl`: the bit is written, the head of the ADC stream consumed and
the read recorded. -/
def scan_cell_result (data : Data) (r s : Nat) (st : ScanState) (buf pl rl : Nat) : ScanState :=
  { rows := Function.update st.rows s
      (decide_cell (st.rows s) r ((data.matrix_state s).testBit r) buf pl rl)
    adc := (read_raw_matrix_state st.adc).2
    trace := st.trace ++ [Event.read s r (read_raw_matrix_state st.adc).1] }

/-- The decision of the scan loop for a cell, from the previous bit, the
normalised reading and the two limits. -/
def decision (prev : Bool) (buf pl rl : Nat) : Bool :=
  if buf > pl ∧ prev = false then true
  else if prev = true ∧ buf < rl then false
  else prev

/-- What the read phase leaves for a processed cell `(s, r)`: one read, and the
decision taken from its value. -/
def CellDecided (cfg : Config) (data : Data) (s r : Nat) (st : ScanState) : Prop :=
  ∃ raw buf pl rl,
    reads_of s r st.trace = [Event.read s r raw] ∧
    normalize raw (calibration_entry_for_strobe_input cfg data s r).avg_low
      (calibration_entry_for_strobe_input cfg data s r).avg_high = some buf ∧
    press_limit (calibration_entry_for_strobe_input cfg data s r) cfg.trigger_percentage
      = some pl ∧
    release_limit (calibration_entry_for_strobe_input cfg data s r) cfg.trigger_percentage
      = some rl ∧
    (st.rows s).testBit r = decision ((data.matrix_state s).testBit r) buf pl rl

/-- What the read phase leaves for a cell that it does not process. -/
def CellUntouched (s r : Nat) (st : ScanState) : Prop :=
  (st.rows s).testBit r = false ∧ reads_of s r st.trace = []

/-- The traces of a run of sweeps, sweep by sweep. -/
def sweep_traces (cfg : Config) : Data → List Nat → List Nat → Option (List (List Event))
  | _, _, [] => some []
  | data, adc, now :: nows =>
    match kscan_ec_matrix_read cfg data adc now with
    | none => none
    | some r1 => (sweep_traces cfg r1.data r1.adc nows).map (fun ts => r1.trace :: ts)

/-- The one-cell matrix of the end-to-end scenarios, trigger percentage 50. -/
def scenario_config : Config := { strobes_len := 1, inputs_len := 1, trigger_percentage := 50 }

/-- The driver data of the end-to-end scenarios: a key callback, the entry
`avg_low = 100`, `avg_high = 900`, `noise = 5`, and nothing pressed. -/
def scenario_data : Data :=
  { callback := some 1
    calibrations := fun _ => { avg_low := 100, avg_high := 900, noise := 5 }
    reported_matrix_state := fun _ => 0
    matrix_state := fun _ => 0 }

/-- A one-cell matrix whose calibration entry has `avg_low = avg_high = 500`. -/
def degenerate_data : Data :=
  { callback := some 1
    calibrations := fun _ => { avg_low := 500, avg_high := 500, noise := 0 }
    reported_matrix_state := fun _ => 0
    matrix_state := fun _ => 0 }

/-- A one-cell matrix for calibration, 12-bit ADC, with a calibration callback. -/
def calibration_data : Data :=
  { callback := some 1
    calibrations := fun _ => { avg_low := 0, avg_high := 0, noise := 0 }
    reported_matrix_state := fun _ => 0
    matrix_state := fun _ => 0
    calibration_callback := some 2 }

/-- An ADC stream for a calibration: the tossed read, twenty equal low samples
of 1000, then two probes and twenty high samples of 3000. -/
def quiet_adc : List Nat := 0 :: (List.replicate 20 1000 ++ List.replicate 22 3000)

/-- The data of the scenarios with the key held and reported: bit `(0, 0)` set
in `matrix_state` and in `reported_matrix_state`. -/
def pressed_data : Data :=
  { callback := some 1
    calibrations := fun _ => { avg_low := 100, avg_high := 900, noise := 5 }
    reported_matrix_state := fun _ => 1
    matrix_state := fun _ => 1 }

/-- A matrix of three strobes and four inputs in which input 3 of strobe 2 is
masked. -/
def masked_config : Config :=
  { strobes_len := 3, inputs_len := 4, trigger_percentage := 50
    strobe_input_masks := some (fun s => if s = 2 then 8 else 0) }

/-- The `uint16_t` cadence fields of the configuration hold 16-bit values. -/
def cadence_in_range (cfg : Config) : Prop :=
  cfg.active_polling_interval_ms < 65536 ∧ cfg.idle_polling_interval_ms < 65536 ∧
  cfg.sleep_polling_interval_ms < 65536 ∧ cfg.idle_after_secs < 65536 ∧
  cfg.sleep_after_secs < 65536

/-- The cadence that the spec selects for the release timestamp
`last_key_released_at` at uptime `now`. -/
def cadence_ref (cfg : Config) (last_key_released_at now : Nat) : Nat :=
  if last_key_released_at = 0 then cfg.active_polling_interval_ms
  else if (((now : Int) - (last_key_released_at : Int)) % 4294967296).toNat
      > cfg.sleep_after_secs * 1000 then cfg.sleep_polling_interval_ms
  else if (((now : Int) - (last_key_released_at : Int)) % 4294967296).toNat
      > cfg.idle_after_secs * 1000 then cfg.idle_polling_interval_ms
  else cfg.active_polling_interval_ms

/-- The scenario data with a key released at uptime 1000. -/
def released_data : Data := { scenario_data with last_key_released_at := 1000 }

/-- The release of the drain ahead of the strobe, step 5 of the spec: nothing
without a drain pin; the pin set high, or made an input in fake open-drain
mode. -/
def drain_release_ref (cfg : Config) : List HwAction :=
  if cfg.drain_port then
    [if cfg.fake_open_drain then HwAction.gpio_pin_configure Pin.drain GpioFlags.GPIO_INPUT
     else HwAction.gpio_pin_set Pin.drain 1]
  else []

/-- The drain engaged again after the strobe, step 11 of the spec: nothing
without a drain pin; the pin set low, after it is made an output in fake
open-drain mode. -/
def drain_engage_ref (cfg : Config) : List HwAction :=
  if cfg.drain_port then
    (if cfg.fake_open_drain then [HwAction.gpio_pin_configure Pin.drain GpioFlags.GPIO_OUTPUT]
     else []) ++ [HwAction.gpio_pin_set Pin.drain 0]
  else []

/-- The sequence of a single-cell read in the order of the spec, for a given
relax wait `relax_wait` (a list of actions): input pin, relax wait, lock, drain
release, strobe assert, settle wait, ADC read, unlock, strobe deassert, drain
engage, input pin disconnect. -/
def read_sequence_ref (cfg : Config) (strobe input : Nat) (relax_wait : List HwAction) :
    List HwAction :=
  [HwAction.gpio_pin_configure (Pin.input input) GpioFlags.GPIO_INPUT] ++ relax_wait ++
  [HwAction.irq_lock] ++ drain_release_ref cfg ++
  [HwAction.gpio_pin_set (Pin.strobe strobe) 1, HwAction.k_busy_wait cfg.adc_read_settle_us,
   HwAction.adc_read, HwAction.irq_unlock, HwAction.gpio_pin_set (Pin.strobe strobe) 0] ++
  drain_engage_ref cfg ++
  [HwAction.gpio_pin_configure (Pin.input input) GpioFlags.GPIO_DISCONNECTED]

/-- The calibration state of a one-cell matrix after the low phase, with
`avg_low = 1000` and `noise = 1`, and the ADC stream `adc` ahead. -/
def low_done_state (adc : List Nat) : CalibState :=
  { calibrations := fun _ => { avg_low := 1000, avg_high := 0, noise := 1 }
    keys_to_complete := 1
    adc := adc
    events := [] }

/-- An ADC stream whose two probes are exactly the threshold of a 12-bit ADC,
followed by twenty samples of 3000. -/
def threshold_probe_adc : List Nat := 2048 :: 2048 :: List.replicate 20 3000

/-- Some bit of a cell of the matrix differs between the reported words `rep`
and `rep2`. -/
def reported_changed (cfg : Config) (rep rep2 : Nat → Nat) : Prop :=
  ∃ s r, s < cfg.strobes_len ∧ r < cfg.inputs_len ∧ (rep s).testBit r ≠ (rep2 s).testBit r

/-- Some reported word of the matrix is not zero. -/
def reported_keys (cfg : Config) (rep : Nat → Nat) : Prop :=
  ∃ s, s < cfg.strobes_len ∧ rep s ≠ 0

/-- The effect of one event on the consumer's copy of the reported words: a key
callback `(s, r, pressed)` writes bit `r` of word `s`. -/
def replay_event (rep : Nat → Nat) : Event → Nat → Nat
  | Event.key s r pressed => Function.update rep s (WRITE_BIT (rep s) r pressed)
  | Event.read _ _ _ => rep

/-- The consumer's copy of the reported words after the key callbacks of a
trace, starting from `rep`. -/
def replay (rep : Nat → Nat) (trace : List Event) : Nat → Nat :=
  trace.foldl replay_event rep

/-- The value of `pressed` in the last key callback of a list of events, or `d`
when there is none. -/
def last_pressed (d : Bool) : List Event → Bool
  | [] => d
  | Event.key _ _ p :: rest => last_pressed p rest
  | Event.read _ _ _ :: rest => last_pressed d rest

/-- The cell `(strobe, input)` of an event. -/
def event_cell : Event → Nat × Nat
  | Event.read s r _ => (s, r)
  | Event.key s r _ => (s, r)

/-- Whether an event is a read. -/
def is_read : Event → Bool
  | Event.read _ _ _ => true
  | Event.key _ _ _ => false

/-- The cells that a sweep processes, in the order of the read phase: inputs in
the outer loop, strobes in the inner loop. -/
def scanned_cells (cfg : Config) (data : Data) : List (Nat × Nat) :=
  (List.range cfg.inputs_len).flatMap (fun r =>
    (List.range cfg.strobes_len).flatMap (fun s =>
      if scanned cfg data s r then [(s, r)] else []))

/-- The key callbacks of the reporting loops, strobes in the outer loop and
inputs in the inner loop, for the reported words `rep` and the confirmed words
`diffs`. -/
def key_events (cfg : Config) (cb : Option Nat) (rep diffs : Nat → Nat) : List Event :=
  (List.range cfg.strobes_len).flatMap (fun s =>
    (List.range cfg.inputs_len).flatMap (fun r => key_event_for cb (rep s) (diffs s) s r))

/-- The order of the read phase on cells `(strobe, input)`: by input, then by
strobe. -/
def input_major_lt (a b : Nat × Nat) : Prop := a.2 < b.2 ∨ (a.2 = b.2 ∧ a.1 < b.1)

/-- The order of the reporting loops on cells `(strobe, input)`: by strobe, then
by input. -/
def strobe_major_lt (a b : Nat × Nat) : Prop := a.1 < b.1 ∨ (a.1 = b.1 ∧ a.2 < b.2)

/-- A one-cell matrix with the trigger percentage 89. -/
def stuck_config : Config := { strobes_len := 1, inputs_len := 1, trigger_percentage := 89 }

/-- Driver data with the entry `avg_low = 1000`, `avg_high = 1800`, `noise = 0`
and the key held and reported. -/
def stuck_data : Data :=
  { callback := some 1
    calibrations := fun _ => { avg_low := 1000, avg_high := 1800, noise := 0 }
    reported_matrix_state := fun _ => 1
    matrix_state := fun _ => 1 }

/-- The calibration state after cell `(s, i)` is sampled for its high value in
the second phase, from the state `st` and after the two probes: `avg_high` is the
mean of the samples, `noise` the larger of the two noises, `keys_to_complete` is
decremented and `POSITION_COMPLETE` handed to the callback. -/
def high_sampled_state (cfg : Config) (cb : Option Nat) (s i : Nat) (st : CalibState) :
    CalibState :=
  { calibrations := Function.update st.calibrations (calibration_index cfg s i)
      { avg_low := (st.calibrations (calibration_index cfg s i)).avg_low
        avg_high := (sample (st.adc.drop 2)).1.avg
        noise := MAX (st.calibrations (calibration_index cfg s i)).noise
          (sample (st.adc.drop 2)).1.noise }
    keys_to_complete := u16 ((st.keys_to_complete : Int) - 1)
    adc := (sample (st.adc.drop 2)).2
    events := emit cb st.events
      (CalibrationEvent.POSITION_COMPLETE
        (st.calibrations (calibration_index cfg s i)).avg_low
        (sample (st.adc.drop 2)).1.avg
        (u16 (Int.tdiv (((sample (st.adc.drop 2)).1.avg : Int)
          - ((st.calibrations (calibration_index cfg s i)).avg_low : Int)
          + ((st.calibrations (calibration_index cfg s i)).noise : Int))
          ((st.calibrations (calibration_index cfg s i)).noise : Int)))
        s i
        (MAX (st.calibrations (calibration_index cfg s i)).noise
          (sample (st.adc.drop 2)).1.noise)) }

/-- An ADC stream of two probes and twenty samples, all 3000. -/
def high_probe_adc : List Nat := List.replicate 22 3000

/-! # Theorems -/

/-! ## Machine integers -/

theorem u16_natCast_of_lt (n : Nat) (h : n < 65536) : u16 (n : Int) = n := by
  unfold u16; omega

theorem u32_natCast_of_lt (n : Nat) (h : n < 4294967296) : u32 (n : Int) = n := by
  unfold u32; omega

theorem u16_lt (x : Int) : u16 x < 65536 := by
  unfold u16; omega

/-! ## Normaliser -/

theorem normalize_eq_ref (v lo hi : Nat) (hlt : lo < hi) (hhi : hi < 65536) :
    normalize v lo hi = some (normalize_ref v lo hi) := by
  have hq : 65535 * (min (max v lo) hi - lo) / (hi - lo) ≤ 65535 := by
    apply Nat.div_le_of_le_mul
    have : min (max v lo) hi - lo ≤ hi - lo := by omega
    calc 65535 * (min (max v lo) hi - lo) ≤ 65535 * (hi - lo) := Nat.mul_le_mul_left _ this
      _ = (hi - lo) * 65535 := Nat.mul_comm _ _
  unfold normalize normalize_ref
  simp only [MAX, MIN, UINT16_MAX]
  have hden : u16 ((hi : Int) - (lo : Int)) = hi - lo := by unfold u16; omega
  have hclamp : (if (if v > lo then v else lo) < hi then (if v > lo then v else lo) else hi)
      = min (max v lo) hi := by
    split_ifs <;> omega
  rw [hclamp, hden]
  have hnum : u32 ((65535 : Nat) * (((min (max v lo) hi : Nat) : Int) - (lo : Int)))
      = 65535 * (min (max v lo) hi - lo) := by
    unfold u32; omega
  rw [hnum]
  have hne : hi - lo ≠ 0 := by omega
  simp only [hne, if_false]
  rw [u16_natCast_of_lt _ (by omega)]

theorem normalize_ref_mono (lo hi v w : Nat) (h : v ≤ w) :
    normalize_ref v lo hi ≤ normalize_ref w lo hi := by
  unfold normalize_ref
  apply Nat.div_le_div_right
  apply Nat.mul_le_mul_left
  omega

theorem normalize_ref_strict (lo hi a b : Nat) (hlt : lo < hi) (hhi : hi < 65536)
    (hab : a < b) (hb : lo < b) (ha : a < hi) :
    normalize_ref a lo hi < normalize_ref b lo hi := by
  unfold normalize_ref
  have hd : 0 < hi - lo := by omega
  have hxy : min (max a lo) hi - lo + 1 ≤ min (max b lo) hi - lo := by omega
  have h1 : 65535 * (min (max a lo) hi - lo) + (hi - lo) ≤ 65535 * (min (max b lo) hi - lo) := by
    have := Nat.mul_le_mul_left 65535 hxy
    omega
  have h2 := Nat.div_le_div_right (c := hi - lo) h1
  rw [Nat.add_div_right _ hd] at h2
  omega

theorem normalize_isSome (v lo hi : Nat) (h : u16 ((hi : Int) - (lo : Int)) ≠ 0) :
    ∃ b, normalize v lo hi = some b := by
  unfold normalize
  simp only [h, if_false]
  exact ⟨_, rfl⟩

theorem normalize_eq_none (v lo hi : Nat) (h : u16 ((hi : Int) - (lo : Int)) = 0) :
    normalize v lo hi = none := by
  unfold normalize
  simp only [h, if_true]

/-- Claim C4 (normalisation).  For all 16-bit `avg_low < avg_high`, `normalize`
is defined for every input and equals
`floor (65535 * (clamp v avg_low avg_high - avg_low) / (avg_high - avg_low))`
(the conversions of the numerator to 32 bits and of the quotient to 16 bits lose
nothing); it is monotone non-decreasing in its first argument, maps `avg_low` to
`0` and `avg_high` to `65535`. -/
theorem normalize_monotone_endpoints (avg_low avg_high : Nat) (hlt : avg_low < avg_high)
    (hhi : avg_high < 65536) :
    (∀ v, normalize v avg_low avg_high = some (normalize_ref v avg_low avg_high)) ∧
    (∀ v w, v ≤ w → ∃ a b, normalize v avg_low avg_high = some a ∧
      normalize w avg_low avg_high = some b ∧ a ≤ b) ∧
    normalize avg_low avg_low avg_high = some 0 ∧
    normalize avg_high avg_low avg_high = some 65535 := by
  refine ⟨fun v => normalize_eq_ref v avg_low avg_high hlt hhi, ?_, ?_, ?_⟩
  · intro v w hvw
    exact ⟨_, _, normalize_eq_ref v avg_low avg_high hlt hhi,
      normalize_eq_ref w avg_low avg_high hlt hhi, normalize_ref_mono avg_low avg_high v w hvw⟩
  · rw [normalize_eq_ref avg_low avg_low avg_high hlt hhi]
    simp [normalize_ref]
  · rw [normalize_eq_ref avg_high avg_low avg_high hlt hhi]
    have h1 : min (max avg_high avg_low) avg_high - avg_low = avg_high - avg_low := by omega
    have h2 : 0 < avg_high - avg_low := by omega
    simp only [normalize_ref, h1]
    rw [Nat.mul_div_cancel _ h2]

/-- Witness of claim C4: `avg_low = 100`, `avg_high = 900`. -/
theorem normalize_monotone_endpoints_witness :
    (100 < 900 ∧ 900 < 65536) ∧
    (∀ v, normalize v 100 900 = some (normalize_ref v 100 900)) ∧
    (∀ v w, v ≤ w → ∃ a b, normalize v 100 900 = some a ∧
      normalize w 100 900 = some b ∧ a ≤ b) ∧
    normalize 100 100 900 = some 0 ∧
    normalize 900 100 900 = some 65535 :=
  ⟨⟨by decide, by decide⟩, normalize_monotone_endpoints 100 900 (by decide) (by decide)⟩

/-! ## Thresholds -/

theorem range_eq (c : CalibrationEntry) (hlt : c.avg_low < c.avg_high) (hhi : c.avg_high < 65536) :
    range c = c.avg_high - c.avg_low := by
  unfold range u32; omega

/-- Counterexample to claim C2 as stated: for `avg_low = 1000`,
`avg_high = 1100` (at most `2^12 - 1`), `noise = 200` and trigger percentage 50
the scan loop computes `press_limit = 0` and `release_limit = 0`, so
`release_limit < press_limit` fails. -/
theorem release_limit_not_below_press_limit :
    (0 < 1000 ∧ 1000 < 1100 ∧ 1100 ≤ 2 ^ 12 - 1 ∧ 11 ≤ 50 ∧ 50 ≤ 89) ∧
    press_limit { avg_low := 1000, avg_high := 1100, noise := 200 } 50 = some 0 ∧
    release_limit { avg_low := 1000, avg_high := 1100, noise := 200 } 50 = some 0 ∧
    ¬ (∃ p r, press_limit { avg_low := 1000, avg_high := 1100, noise := 200 } 50 = some p ∧
      release_limit { avg_low := 1000, avg_high := 1100, noise := 200 } 50 = some r ∧ r < p) := by
  have hp : press_limit { avg_low := 1000, avg_high := 1100, noise := 200 } 50 = some 0 := by
    decide
  have hr : release_limit { avg_low := 1000, avg_high := 1100, noise := 200 } 50 = some 0 := by
    decide
  refine ⟨by decide, hp, hr, ?_⟩
  rintro ⟨p, r, h1, h2, h3⟩
  rw [hp] at h1
  rw [hr] at h2
  simp only [Option.some.injEq] at h1 h2
  omega

/-- Claim C2, amended (hysteresis).  For a calibration entry with
`avg_low < avg_high <= 65535`, a trigger percentage in 11..89, a noise below
`avg_high - avg_low`, a `hys_buffer` that is not zero, and `hys_buffer` at most
`press_limit_raw` (the 16-bit difference `press_limit_raw - hys_buffer` does not
wrap), both limits are defined and `release_limit < press_limit`. -/
theorem release_limit_lt_press_limit (c : CalibrationEntry) (tp : Nat)
    (hlt : c.avg_low < c.avg_high) (hhi : c.avg_high < 65536)
    (htp : 11 ≤ tp ∧ tp ≤ 89)
    (hnoise : c.noise < c.avg_high - c.avg_low)
    (hhys : 0 < hys_buffer c)
    (hwrap : hys_buffer c ≤ press_limit_raw c tp) :
    ∃ p r, press_limit c tp = some p ∧ release_limit c tp = some r ∧ r < p := by
  have hr := range_eq c hlt hhi
  have hm : MAX (u32 ((range c : Int) * (tp : Int)) / 100) c.noise < c.avg_high - c.avg_low := by
    rw [hr]
    have hprod : u32 (((c.avg_high - c.avg_low : Nat) : Int) * (tp : Int))
        = (c.avg_high - c.avg_low) * tp := by
      have hb : (c.avg_high - c.avg_low) * tp ≤ 65535 * 89 :=
        Nat.mul_le_mul (by omega) htp.2
      rw [← Nat.cast_mul]
      exact u32_natCast_of_lt _ (by omega)
    rw [hprod]
    have hq : (c.avg_high - c.avg_low) * tp / 100 < c.avg_high - c.avg_low := by
      apply Nat.div_lt_of_lt_mul
      have := Nat.mul_le_mul_left (c.avg_high - c.avg_low) htp.2
      omega
    unfold MAX
    split_ifs <;> omega
  have hprl : press_limit_raw c tp
      = c.avg_high - MAX (u32 ((range c : Int) * (tp : Int)) / 100) c.noise := by
    unfold press_limit_raw
    rw [u16_natCast_of_lt _ (by omega)]
    unfold u16; omega
  have hrel : u16 ((press_limit_raw c tp : Int) - (hys_buffer c : Int))
      = press_limit_raw c tp - hys_buffer c := by
    unfold u16; omega
  refine ⟨normalize_ref (press_limit_raw c tp) c.avg_low c.avg_high,
    normalize_ref (press_limit_raw c tp - hys_buffer c) c.avg_low c.avg_high, ?_, ?_, ?_⟩
  · exact normalize_eq_ref _ _ _ hlt hhi
  · unfold release_limit
    rw [hrel]
    exact normalize_eq_ref _ _ _ hlt hhi
  · apply normalize_ref_strict _ _ _ _ hlt hhi <;> omega

/-- Witness of claim C2, amended: the entry `avg_low = 100`, `avg_high = 900`,
`noise = 5` with trigger percentage 50. -/
theorem release_limit_lt_press_limit_witness :
    ((100 : Nat) < 900 ∧ (900 : Nat) < 65536 ∧ (11 ≤ 50 ∧ 50 ≤ 89) ∧ (5 : Nat) < 900 - 100 ∧
      0 < hys_buffer { avg_low := 100, avg_high := 900, noise := 5 } ∧
      hys_buffer { avg_low := 100, avg_high := 900, noise := 5 }
        ≤ press_limit_raw { avg_low := 100, avg_high := 900, noise := 5 } 50) ∧
    ∃ p r, press_limit { avg_low := 100, avg_high := 900, noise := 5 } 50 = some p ∧
      release_limit { avg_low := 100, avg_high := 900, noise := 5 } 50 = some r ∧ r < p :=
  ⟨by decide, release_limit_lt_press_limit { avg_low := 100, avg_high := 900, noise := 5 } 50
    (by decide) (by decide) (by decide) (by decide) (by decide) (by decide)⟩

/-- The 16-bit difference `press_limit_raw - hys_buffer` can wrap: for
`avg_low = 1`, `avg_high = 801`, `noise = 0` and trigger percentage 89 the
release limit is above the press limit. -/
theorem release_limit_wraps_above_press_limit :
    press_limit { avg_low := 1, avg_high := 801, noise := 0 } 89 = some 7208 ∧
    release_limit { avg_low := 1, avg_high := 801, noise := 0 } 89 = some 65535 := by
  constructor <;> decide

/-! ## Sampler -/

theorem read_raw_snd (adc : List Nat) : (read_raw_matrix_state adc).2 = adc.drop 1 := by
  cases adc <;> rfl

theorem read_raw_lt (adc : List Nat) : (read_raw_matrix_state adc).1 < 65536 := by
  cases adc with
  | nil => simp [read_raw_matrix_state]
  | cons v rest => exact u16_lt (v : Int)

theorem nth_read_lt (adc : List Nat) (k : Nat) : nth_read adc k < 65536 :=
  read_raw_lt _

theorem sample_loop_succ (n : Nat) (adc : List Nat) :
    sample_loop (n + 1) adc = sample_step (sample_loop n adc) n := by
  unfold sample_loop
  rw [List.range_succ, List.foldl_append]
  rfl

theorem mean_ref_lt (v : Nat → Nat) (hv : ∀ k, v k < 65536) : ∀ k, mean_ref v k < 65536
  | 0 => hv 0
  | k + 1 => by
    unfold mean_ref
    have h1 := mean_ref_lt v hv k
    have h2 := hv (k + 1)
    apply Nat.div_lt_of_lt_mul
    have : mean_ref v k * (k + 1) ≤ 65535 * (k + 1) := Nat.mul_le_mul_right _ (by omega)
    have e : (k + 2) * 65536 = 65535 * (k + 1) + (k + 1) + 65536 := by ring
    omega

theorem sample_loop_inv (adc : List Nat) : ∀ n, SampleInv adc n (sample_loop (n + 1) adc)
  | 0 => by
    rw [sample_loop_succ]
    simp only [sample_loop, List.range_zero, List.foldl_nil, sample_step, if_true]
    refine ⟨?_, ?_, ?_, ?_, ?_, ?_⟩
    · simp [read_raw_snd]
    · simp [mean_ref, nth_read]
    · intro k hk
      have : k = 0 := by omega
      subst this; simp [nth_read]
    · exact ⟨0, le_refl _, by simp [nth_read]⟩
    · intro k hk
      have : k = 0 := by omega
      subst this; simp [nth_read]
    · exact ⟨0, le_refl _, by simp [nth_read]⟩
  | n + 1 => by
    have ih := sample_loop_inv adc n
    rw [sample_loop_succ]
    generalize sample_loop (n + 1) adc = st at ih
    obtain ⟨h1, h2, h3, h4, h5, h6⟩ := ih
    have hval : (read_raw_matrix_state st.adc).1 = nth_read adc (n + 1) := by
      rw [h1]; rfl
    have hvlt := nth_read_lt adc (n + 1)
    have hmlt := mean_ref_lt (nth_read adc) (nth_read_lt adc) n
    have hmlt2 := mean_ref_lt (nth_read adc) (nth_read_lt adc) (n + 1)
    simp only [sample_step, Nat.succ_ne_zero, if_false]
    refine ⟨?_, ?_, ?_, ?_, ?_, ?_⟩
    · simp only [read_raw_snd, h1, List.drop_drop]
    · simp only [hval, h2]
      have : ((mean_ref (nth_read adc) n : Int) * ((n + 1 : Nat) : Int)
            + (nth_read adc (n + 1) : Int)) / (((n + 1 : Nat) : Int) + 1)
          = ((mean_ref (nth_read adc) (n + 1) : Nat) : Int) := by
        conv_rhs => unfold mean_ref
        push_cast
        ring_nf
      rw [this]
      exact u16_natCast_of_lt _ hmlt2
    · intro k hk
      simp only [hval, MIN]
      rcases Nat.lt_or_ge k (n + 1) with hlt | hge
      · have := h3 k (by omega)
        split_ifs <;> omega
      · have : k = n + 1 := by omega
        subst this
        split_ifs <;> omega
    · simp only [hval, MIN]
      obtain ⟨k, hk, hk2⟩ := h4
      split_ifs
      · exact ⟨n + 1, le_refl _, rfl⟩
      · exact ⟨k, by omega, hk2⟩
    · intro k hk
      simp only [hval, MAX]
      rcases Nat.lt_or_ge k (n + 1) with hlt | hge
      · have := h5 k (by omega)
        split_ifs <;> omega
      · have : k = n + 1 := by omega
        subst this
        split_ifs <;> omega
    · simp only [hval, MAX]
      obtain ⟨k, hk, hk2⟩ := h6
      split_ifs
      · exact ⟨n + 1, le_refl _, rfl⟩
      · exact ⟨k, by omega, hk2⟩

theorem sample_inv (adc : List Nat) : SampleInv adc 19 (sample_loop SAMPLE_COUNT adc) :=
  sample_loop_inv adc 19

theorem sample_unfold (adc : List Nat) :
    sample adc = (sample_results.mk (sample_loop SAMPLE_COUNT adc).min
      (sample_loop SAMPLE_COUNT adc).max (sample_loop SAMPLE_COUNT adc).avg
      (u16 (((sample_loop SAMPLE_COUNT adc).max : Int) - ((sample_loop SAMPLE_COUNT adc).min : Int))),
      (sample_loop SAMPLE_COUNT adc).adc) := by
  unfold sample
  rfl

/-- Claim C10 (sampler reference).  For every ADC stream, with `v_k` the value
returned by read `k` of the twenty reads of `sample`: `min` is the minimum of the
`v_k`, `max` the maximum, `noise = max - min`, and `avg` is `mean_19` of the
recurrence `mean_0 = v_0`, `mean_k = floor ((mean_(k-1) * k + v_k) / (k + 1))` in
unbounded arithmetic, so the 16-bit conversions of `sample` lose nothing; the
twenty reads are consumed from the stream. -/
theorem sample_reference (adc : List Nat) :
    (∀ k, k < 20 → (sample adc).1.min ≤ nth_read adc k) ∧
    (∃ k, k < 20 ∧ (sample adc).1.min = nth_read adc k) ∧
    (∀ k, k < 20 → nth_read adc k ≤ (sample adc).1.max) ∧
    (∃ k, k < 20 ∧ (sample adc).1.max = nth_read adc k) ∧
    (sample adc).1.noise = (sample adc).1.max - (sample adc).1.min ∧
    (sample adc).1.avg = mean_ref (nth_read adc) 19 ∧
    (sample adc).2 = adc.drop 20 := by
  rw [sample_unfold]
  obtain ⟨h1, h2, h3, h4, h5, h6⟩ := sample_inv adc
  generalize sample_loop SAMPLE_COUNT adc = st at *
  simp only
  refine ⟨fun k hk => h3 k (by omega), ?_, fun k hk => h5 k (by omega), ?_, ?_, h2, h1⟩
  · obtain ⟨k, hk, e⟩ := h4
    exact ⟨k, by omega, e⟩
  · obtain ⟨k, hk, e⟩ := h6
    exact ⟨k, by omega, e⟩
  · obtain ⟨k, hk, e⟩ := h6
    have := h3 k hk
    have := nth_read_lt adc k
    rw [e] at *
    unfold u16; omega

/-! ## Bit operations -/

theorem land_BIT (x r : Nat) : x &&& BIT r = if x.testBit r then 2 ^ r else 0 := by
  unfold BIT
  rw [Nat.and_two_pow]
  cases x.testBit r <;> simp

theorem land_BIT_ne_zero (x r : Nat) : ((x &&& BIT r) != 0) = x.testBit r := by
  rw [land_BIT]
  cases x.testBit r <;> simp

theorem land_BIT_ne (x y r : Nat) :
    ((x &&& BIT r) != (y &&& BIT r)) = (x.testBit r != y.testBit r) := by
  rw [land_BIT, land_BIT]
  have : (2 : Nat) ^ r ≠ 0 := by positivity
  cases x.testBit r <;> cases y.testBit r <;> simp [this, Ne.symm this]

theorem testBit_WRITE_BIT (var b : Nat) (set : Bool) (i : Nat) :
    (WRITE_BIT var b set).testBit i = if i = b then set else var.testBit i := by
  unfold WRITE_BIT BIT
  cases set
  · simp only [Bool.false_eq_true, if_false, Nat.testBit_xor, Nat.testBit_and, Nat.testBit_two_pow]
    by_cases h : i = b
    · subst h; simp
    · have : ¬ b = i := fun e => h e.symm
      simp [h, this]
  · simp only [if_true, Nat.testBit_or, Nat.testBit_two_pow]
    by_cases h : i = b
    · subst h; simp
    · have : ¬ b = i := fun e => h e.symm
      simp [h, this]

theorem testBit_decide_cell_ne (row r : Nat) (prev : Bool) (buf pl rl i : Nat) (h : i ≠ r) :
    (decide_cell row r prev buf pl rl).testBit i = row.testBit i := by
  unfold decide_cell
  split_ifs <;> simp [testBit_WRITE_BIT, h]

theorem testBit_decide_cell_self (row r : Nat) (prev : Bool) (buf pl rl : Nat) :
    (decide_cell row r prev buf pl rl).testBit r =
      if buf > pl ∧ prev = false then true
      else if prev = true ∧ buf < rl then false
      else prev := by
  unfold decide_cell
  cases prev <;> simp [testBit_WRITE_BIT] <;> split_ifs <;> simp_all [testBit_WRITE_BIT]

/-! ## Loops -/

theorem for_range_inv {σ : Type} (P : σ → Prop) (body : Nat → σ → σ) (n : Nat)
    (h : ∀ i st, i < n → P st → P (body i st)) (st : σ) (h0 : P st) :
    P (for_range n body st) := by
  induction n with
  | zero => exact h0
  | succ n ih =>
    exact h n _ (Nat.lt_succ_self n) (ih (fun i st hi => h i st (Nat.lt_succ_of_lt hi)))

theorem for_range_opt_inv {σ : Type} (P : σ → Prop) (body : Nat → σ → Option σ) (n : Nat)
    (h : ∀ i st st', i < n → body i st = some st' → P st → P st') (st st' : σ)
    (hrun : for_range_opt n body st = some st') (h0 : P st) : P st' := by
  induction n generalizing st' with
  | zero =>
    simp only [for_range_opt, Option.some.injEq] at hrun
    exact hrun ▸ h0
  | succ n ih =>
    simp only [for_range_opt] at hrun
    cases hmid : for_range_opt n body st with
    | none => simp [hmid] at hrun
    | some mid =>
      rw [hmid] at hrun
      exact h n mid st' (Nat.lt_succ_self n) hrun
        (ih (fun i a b hi => h i a b (Nat.lt_succ_of_lt hi)) mid hmid)

theorem for_range_opt_phase {σ : Type} (P Q : σ → Prop) (body : Nat → σ → Option σ)
    (n i : Nat) (hi : i < n)
    (hpre : ∀ j st st', j < i → body j st = some st' → P st → P st')
    (hest : ∀ st st', body i st = some st' → P st → Q st')
    (hpost : ∀ j st st', i < j → j < n → body j st = some st' → Q st → Q st')
    (st st' : σ) (hrun : for_range_opt n body st = some st') (h0 : P st) : Q st' := by
  induction n generalizing st' with
  | zero => omega
  | succ n ih =>
    simp only [for_range_opt] at hrun
    cases hmid : for_range_opt n body st with
    | none => simp [hmid] at hrun
    | some mid =>
      rw [hmid] at hrun
      rcases Nat.lt_or_ge i n with hlt | hge
      · exact hpost n mid st' hlt (Nat.lt_succ_self n) hrun
          (ih hlt (fun j a b h1 h2 => hpost j a b h1 (Nat.lt_succ_of_lt h2)) mid hmid)
      · have hin : i = n := by omega
        subst hin
        exact hest mid st' hrun (for_range_opt_inv P body i hpre st mid hmid h0)

theorem for_range_opt_total {σ : Type} (body : Nat → σ → Option σ) (n : Nat)
    (h : ∀ i st, i < n → ∃ st', body i st = some st') (st : σ) :
    ∃ st', for_range_opt n body st = some st' := by
  induction n with
  | zero => exact ⟨st, rfl⟩
  | succ n ih =>
    obtain ⟨mid, hmid⟩ := ih (fun i st hi => h i st (Nat.lt_succ_of_lt hi))
    obtain ⟨st', hst'⟩ := h n mid (Nat.lt_succ_self n)
    exact ⟨st', by simp [for_range_opt, hmid, hst']⟩

/-! ## Confirmation and reporting -/

theorem latch_loop (rows : Nat → Nat) (st : LatchState) (n : Nat) :
    ∀ s, ((for_range n (latch_step rows) st).diffs s
        = if s < n then rows s &&& st.matrix_state s else st.diffs s) ∧
      ((for_range n (latch_step rows) st).matrix_state s
        = if s < n then rows s else st.matrix_state s) := by
  induction n with
  | zero => intro s; simp [for_range]
  | succ n ih =>
    intro s
    simp only [for_range, latch_step]
    by_cases h : s = n
    · subst h
      have := (ih s).2
      simp only [Nat.lt_irrefl, if_false] at this
      simp [this]
    · have hne : s ≠ n := h
      simp only [Function.update_noteq hne]
      rw [(ih s).1, (ih s).2]
      have : (s < n + 1) = (s < n) := by
        apply propext; omega
      simp only [this]
      trivial

theorem reads_of_append (s r : Nat) (a b : List Event) :
    reads_of s r (a ++ b) = reads_of s r a ++ reads_of s r b := by
  simp [reads_of]

theorem keys_of_append (s r : Nat) (a b : List Event) :
    keys_of s r (a ++ b) = keys_of s r a ++ keys_of s r b := by
  simp [keys_of]

theorem report_bit_spec (cb : Option Nat) (diff s r : Nat) (st : ReportState) (s0 r0 : Nat) :
    (report_bit cb diff s r st).reported_matrix_state = st.reported_matrix_state ∧
    reads_of s0 r0 (report_bit cb diff s r st).trace = reads_of s0 r0 st.trace ∧
    keys_of s0 r0 (report_bit cb diff s r st).trace = keys_of s0 r0 st.trace ++
      (if s = s0 ∧ r = r0 then key_event_for cb (st.reported_matrix_state s) diff s r else []) := by
  unfold report_bit key_event_for
  rw [land_BIT_ne, land_BIT_ne_zero]
  cases hch : (st.reported_matrix_state s).testBit r != diff.testBit r
  · simp
  · cases hcb : cb.isSome
    · simp
    · simp only [if_true, reads_of, keys_of, List.filter_append, Bool.and_self]
      refine ⟨trivial, ?_, ?_⟩
      · simp [is_read_of]
      · by_cases h : s = s0 ∧ r = r0
        · simp [h, is_key_of]
        · simp only [h, if_false]
          have : is_key_of s0 r0 (Event.key s r (diff.testBit r)) = false := by
            simp only [is_key_of]
            by_cases h1 : s = s0
            · have : r ≠ r0 := fun e => h ⟨h1, e⟩
              simp [this]
            · simp [h1]
          simp [this]

theorem report_input_loop (cb : Option Nat) (diff s : Nat) (st : ReportState) (s0 r0 : Nat)
    (n : Nat) :
    (for_range n (report_bit cb diff s) st).reported_matrix_state = st.reported_matrix_state ∧
    reads_of s0 r0 (for_range n (report_bit cb diff s) st).trace = reads_of s0 r0 st.trace ∧
    keys_of s0 r0 (for_range n (report_bit cb diff s) st).trace = keys_of s0 r0 st.trace ++
      (if s = s0 ∧ r0 < n then key_event_for cb (st.reported_matrix_state s) diff s r0 else []) := by
  induction n with
  | zero => simp [for_range]
  | succ n ih =>
    obtain ⟨ih1, ih2, ih3⟩ := ih
    obtain ⟨h1, h2, h3⟩ := report_bit_spec cb diff s n (for_range n (report_bit cb diff s) st) s0 r0
    simp only [for_range]
    refine ⟨h1.trans ih1, h2.trans ih2, ?_⟩
    rw [h3, ih3, ih1, List.append_assoc]
    congr 1
    by_cases hs : s = s0
    · rcases Nat.lt_trichotomy r0 n with h | h | h
      · have a : r0 < n + 1 := by omega
        have b : ¬ n = r0 := by omega
        simp [hs, h, a, b]
      · subst h
        simp [hs]
      · have a : ¬ r0 < n + 1 := by omega
        have b : ¬ n = r0 := by omega
        have c : ¬ r0 < n := by omega
        simp [a, b, c]
    · simp [hs]

theorem report_strobe_spec (cfg : Config) (cb : Option Nat) (diffs : Nat → Nat) (s : Nat)
    (st : ReportState) (s0 r0 : Nat) :
    (report_strobe cfg cb diffs s st).reported_matrix_state
      = Function.update st.reported_matrix_state s (diffs s) ∧
    reads_of s0 r0 (report_strobe cfg cb diffs s st).trace = reads_of s0 r0 st.trace ∧
    keys_of s0 r0 (report_strobe cfg cb diffs s st).trace = keys_of s0 r0 st.trace ++
      (if s = s0 ∧ r0 < cfg.inputs_len
        then key_event_for cb (st.reported_matrix_state s) (diffs s) s r0 else []) := by
  obtain ⟨h1, h2, h3⟩ := report_input_loop cb (diffs s) s st s0 r0 cfg.inputs_len
  simp only [report_strobe]
  exact ⟨by rw [h1], h2, h3⟩

theorem report_strobe_loop (cfg : Config) (cb : Option Nat) (diffs : Nat → Nat)
    (st : ReportState) (s0 r0 : Nat) (m : Nat) :
    (∀ x, (for_range m (report_strobe cfg cb diffs) st).reported_matrix_state x
      = if x < m then diffs x else st.reported_matrix_state x) ∧
    reads_of s0 r0 (for_range m (report_strobe cfg cb diffs) st).trace = reads_of s0 r0 st.trace ∧
    keys_of s0 r0 (for_range m (report_strobe cfg cb diffs) st).trace = keys_of s0 r0 st.trace ++
      (if s0 < m ∧ r0 < cfg.inputs_len
        then key_event_for cb (st.reported_matrix_state s0) (diffs s0) s0 r0 else []) := by
  induction m with
  | zero => simp [for_range]
  | succ m ih =>
    obtain ⟨ih1, ih2, ih3⟩ := ih
    obtain ⟨h1, h2, h3⟩ :=
      report_strobe_spec cfg cb diffs m (for_range m (report_strobe cfg cb diffs) st) s0 r0
    simp only [for_range]
    refine ⟨?_, h2.trans ih2, ?_⟩
    · intro x
      rw [h1]
      by_cases hx : x = m
      · subst hx; simp
      · rw [Function.update_noteq hx, ih1 x]
        have : (x < m + 1) = (x < m) := by
          apply propext; omega
        simp only [this]
    · rw [h3, ih3, List.append_assoc]
      congr 1
      have hm := ih1 m
      simp only [Nat.lt_irrefl, if_false] at hm
      rw [hm]
      rcases Nat.lt_trichotomy s0 m with h | h | h
      · have a : s0 < m + 1 := by omega
        have b : ¬ m = s0 := by omega
        simp [h, a, b]
      · subst h
        simp
      · have a : ¬ s0 < m + 1 := by omega
        have b : ¬ m = s0 := by omega
        have c : ¬ s0 < m := by omega
        simp [a, b, c]

/-- What `confirm_and_report` leaves in the data and the trace, cell by cell. -/
theorem confirm_and_report_spec (cfg : Config) (data : Data) (now : Nat) (st : ScanState)
    (s r : Nat) :
    ((confirm_and_report cfg data now st).data.matrix_state s
      = if s < cfg.strobes_len then st.rows s else data.matrix_state s) ∧
    ((confirm_and_report cfg data now st).data.reported_matrix_state s
      = if s < cfg.strobes_len then st.rows s &&& data.matrix_state s
        else data.reported_matrix_state s) ∧
    reads_of s r (confirm_and_report cfg data now st).trace = reads_of s r st.trace ∧
    keys_of s r (confirm_and_report cfg data now st).trace = keys_of s r st.trace ++
      (if s < cfg.strobes_len ∧ r < cfg.inputs_len
        then key_event_for data.callback (data.reported_matrix_state s)
          (st.rows s &&& data.matrix_state s) s r else []) ∧
    (confirm_and_report cfg data now st).data.calibrations = data.calibrations ∧
    (confirm_and_report cfg data now st).data.callback = data.callback ∧
    (confirm_and_report cfg data now st).adc = st.adc := by
  have hl := latch_loop st.rows { diffs := fun _ => 0, matrix_state := data.matrix_state }
    cfg.strobes_len
  obtain ⟨h1, h2, h3⟩ := report_strobe_loop cfg data.callback
    (for_range cfg.strobes_len (latch_step st.rows)
      { diffs := fun _ => 0, matrix_state := data.matrix_state }).diffs
    { reported_matrix_state := data.reported_matrix_state
      have_change := false, have_keys := false, trace := st.trace } s r cfg.strobes_len
  simp only [confirm_and_report]
  refine ⟨(hl s).2, ?_, h2, ?_, trivial, trivial, trivial⟩
  · rw [h1 s]
    by_cases hs : s < cfg.strobes_len
    · simp only [hs, if_true]
      rw [(hl s).1]
      simp [hs]
    · simp [hs]
  · rw [h3]
    congr 1
    by_cases hs : s < cfg.strobes_len
    · rw [(hl s).1]
      simp [hs]
    · simp [hs]

theorem key_event_for_same (cb : Option Nat) (rep diff s r : Nat)
    (h : rep.testBit r = diff.testBit r) : key_event_for cb rep diff s r = [] := by
  simp [key_event_for, h]

theorem key_event_for_changed (cb : Option Nat) (rep diff s r : Nat) (hcb : cb.isSome = true)
    (h : rep.testBit r ≠ diff.testBit r) :
    key_event_for cb rep diff s r = [Event.key s r (diff.testBit r)] := by
  simp [key_event_for, hcb, h]

/-! ## Read phase -/

theorem scan_cell_skipped (cfg : Config) (data : Data) (r s : Nat) (st : ScanState)
    (h : scanned cfg data s r = false) : scan_cell cfg data r s st = some st := by
  unfold scanned at h
  unfold scan_cell
  by_cases h1 : (calibration_entry_for_strobe_input cfg data s r).avg_high = 0
  · simp [h1]
  · simp only [h1, if_false]
    simp only [ne_eq, h1, not_false_eq_true, decide_True, Bool.true_and, Bool.not_eq_false'] at h
    simp [h]

theorem scan_cell_scanned (cfg : Config) (data : Data) (r s : Nat) (st st' : ScanState)
    (h : scanned cfg data s r = true) (hrun : scan_cell cfg data r s st = some st') :
    ∃ buf pl rl,
      normalize (read_raw_matrix_state st.adc).1
        (calibration_entry_for_strobe_input cfg data s r).avg_low
        (calibration_entry_for_strobe_input cfg data s r).avg_high = some buf ∧
      press_limit (calibration_entry_for_strobe_input cfg data s r) cfg.trigger_percentage
        = some pl ∧
      release_limit (calibration_entry_for_strobe_input cfg data s r) cfg.trigger_percentage
        = some rl ∧
      st' = scan_cell_result data r s st buf pl rl := by
  unfold scanned at h
  simp only [Bool.and_eq_true, decide_eq_true_eq, Bool.not_eq_true'] at h
  unfold scan_cell at hrun
  simp only [h.1, h.2, if_false, Bool.false_eq_true] at hrun
  rw [land_BIT_ne_zero] at hrun
  split at hrun
  · rename_i buf pl rl e1 e2 e3
    simp only [Option.some.injEq] at hrun
    exact ⟨buf, pl, rl, e1, e2, e3, hrun.symm⟩
  · simp at hrun

theorem scan_cell_total (cfg : Config) (data : Data) (r s : Nat) (st : ScanState)
    (h : scanned cfg data s r = true →
      u16 (((calibration_entry_for_strobe_input cfg data s r).avg_high : Int)
        - ((calibration_entry_for_strobe_input cfg data s r).avg_low : Int)) ≠ 0) :
    ∃ st', scan_cell cfg data r s st = some st' := by
  cases hsc : scanned cfg data s r
  · exact ⟨st, scan_cell_skipped cfg data r s st hsc⟩
  · have hd := h hsc
    unfold scanned at hsc
    simp only [Bool.and_eq_true, decide_eq_true_eq, Bool.not_eq_true'] at hsc
    obtain ⟨buf, e1⟩ := normalize_isSome (read_raw_matrix_state st.adc).1 _ _ hd
    obtain ⟨pl, e2⟩ := normalize_isSome
      (press_limit_raw (calibration_entry_for_strobe_input cfg data s r) cfg.trigger_percentage)
      _ _ hd
    obtain ⟨rl, e3⟩ := normalize_isSome
      (u16 ((press_limit_raw (calibration_entry_for_strobe_input cfg data s r)
        cfg.trigger_percentage : Int)
        - (hys_buffer (calibration_entry_for_strobe_input cfg data s r) : Int))) _ _ hd
    unfold scan_cell
    simp only [hsc.1, hsc.2, if_false, Bool.false_eq_true]
    unfold press_limit release_limit
    rw [e1, e2, e3]
    exact ⟨_, rfl⟩

/-- A processed cell whose entry has `avg_high - avg_low` equal to zero as a
`uint16_t` runs into the division by zero of `normalize`. -/
theorem scan_cell_zero_denominator (cfg : Config) (data : Data) (r s : Nat) (st : ScanState)
    (hsc : scanned cfg data s r = true)
    (hden : u16 (((calibration_entry_for_strobe_input cfg data s r).avg_high : Int)
      - ((calibration_entry_for_strobe_input cfg data s r).avg_low : Int)) = 0) :
    scan_cell cfg data r s st = none := by
  unfold scanned at hsc
  simp only [Bool.and_eq_true, decide_eq_true_eq, Bool.not_eq_true'] at hsc
  unfold scan_cell
  simp only [hsc.1, hsc.2, if_false, Bool.false_eq_true]
  rw [normalize_eq_none _ _ _ hden]

theorem scan_rows_total (cfg : Config) (data : Data) (adc : List Nat) (h : DivSafe cfg data) :
    ∃ st, scan_rows cfg data adc = some st := by
  unfold scan_rows
  apply for_range_opt_total
  intro r st hr
  apply for_range_opt_total
  intro s st2 hs
  exact scan_cell_total cfg data r s st2 (h s r hs hr)

theorem scan_cell_keys (cfg : Config) (data : Data) (r s : Nat) (st st' : ScanState)
    (hrun : scan_cell cfg data r s st = some st') (s0 r0 : Nat) :
    keys_of s0 r0 st'.trace = keys_of s0 r0 st.trace := by
  cases hsc : scanned cfg data s r
  · rw [scan_cell_skipped cfg data r s st hsc] at hrun
    simp only [Option.some.injEq] at hrun
    rw [← hrun]
  · obtain ⟨buf, pl, rl, -, -, -, e⟩ := scan_cell_scanned cfg data r s st st' hsc hrun
    rw [e]
    simp [scan_cell_result, keys_of, is_key_of]

theorem scan_cell_frame (cfg : Config) (data : Data) (r s : Nat) (st st' : ScanState)
    (hrun : scan_cell cfg data r s st = some st') (s0 r0 : Nat)
    (hne : scanned cfg data s r = true → ¬ (s = s0 ∧ r = r0)) :
    (st'.rows s0).testBit r0 = (st.rows s0).testBit r0 ∧
    reads_of s0 r0 st'.trace = reads_of s0 r0 st.trace := by
  cases hsc : scanned cfg data s r
  · rw [scan_cell_skipped cfg data r s st hsc] at hrun
    simp only [Option.some.injEq] at hrun
    rw [← hrun]
    exact ⟨rfl, rfl⟩
  · obtain ⟨buf, pl, rl, -, -, -, e⟩ := scan_cell_scanned cfg data r s st st' hsc hrun
    have hne2 := hne hsc
    rw [e]
    simp only [scan_cell_result]
    constructor
    · by_cases hs : s0 = s
      · subst hs
        have hr : r0 ≠ r := fun e => hne2 ⟨rfl, e.symm⟩
        simp only [Function.update_same]
        exact testBit_decide_cell_ne _ _ _ _ _ _ _ hr
      · rw [Function.update_noteq hs]
    · rw [reads_of_append]
      have : reads_of s0 r0 [Event.read s r (read_raw_matrix_state st.adc).1] = [] := by
        simp only [reads_of, List.filter_cons, List.filter_nil, is_read_of]
        by_cases h1 : s = s0
        · have : r ≠ r0 := fun e => hne2 ⟨h1, e⟩
          simp [this]
        · simp [h1]
      rw [this, List.append_nil]

theorem scan_cell_at (cfg : Config) (data : Data) (r s : Nat) (st st' : ScanState)
    (hsc : scanned cfg data s r = true) (hrun : scan_cell cfg data r s st = some st')
    (h0 : reads_of s r st.trace = []) : CellDecided cfg data s r st' := by
  obtain ⟨buf, pl, rl, e1, e2, e3, e⟩ := scan_cell_scanned cfg data r s st st' hsc hrun
  refine ⟨(read_raw_matrix_state st.adc).1, buf, pl, rl, ?_, e1, e2, e3, ?_⟩
  · rw [e]
    simp only [scan_cell_result, reads_of_append, h0, List.nil_append]
    simp [reads_of, is_read_of]
  · rw [e]
    simp only [scan_cell_result, Function.update_same, decision]
    exact testBit_decide_cell_self _ _ _ _ _ _

theorem CellDecided_frame (cfg : Config) (data : Data) (s r : Nat) (st st' : ScanState)
    (h1 : (st'.rows s).testBit r = (st.rows s).testBit r)
    (h2 : reads_of s r st'.trace = reads_of s r st.trace)
    (h : CellDecided cfg data s r st) : CellDecided cfg data s r st' := by
  obtain ⟨raw, buf, pl, rl, a, b, c, d, e⟩ := h
  exact ⟨raw, buf, pl, rl, by rw [h2, a], b, c, d, by rw [h1, e]⟩

theorem scan_rows_decided (cfg : Config) (data : Data) (adc : List Nat) (st : ScanState)
    (hrun : scan_rows cfg data adc = some st) (s r : Nat)
    (hs : s < cfg.strobes_len) (hr : r < cfg.inputs_len) (hsc : scanned cfg data s r = true) :
    CellDecided cfg data s r st := by
  unfold scan_rows at hrun
  refine for_range_opt_phase (fun st : ScanState => reads_of s r st.trace = []) (CellDecided cfg data s r)
    _ cfg.inputs_len r hr ?_ ?_ ?_ _ st hrun rfl
  · intro j a b hj hab hP
    refine for_range_opt_inv (fun st : ScanState => reads_of s r st.trace = []) _ cfg.strobes_len ?_ a b hab hP
    intro i x y _ hxy hx
    have := (scan_cell_frame cfg data j i x y hxy s r (fun _ h => by omega)).2
    simp only [this, hx]
  · intro a b hab hP
    refine for_range_opt_phase (fun st : ScanState => reads_of s r st.trace = []) (CellDecided cfg data s r)
      _ cfg.strobes_len s hs ?_ ?_ ?_ a b hab hP
    · intro i x y hi hxy hx
      have := (scan_cell_frame cfg data r i x y hxy s r (fun _ h => by omega)).2
      simp only [this, hx]
    · intro x y hxy hx
      exact scan_cell_at cfg data r s x y hsc hxy hx
    · intro i x y hi _ hxy hx
      have := scan_cell_frame cfg data r i x y hxy s r (fun _ h => by omega)
      exact CellDecided_frame cfg data s r x y this.1 this.2 hx
  · intro j a b hj _ hab hQ
    refine for_range_opt_inv (CellDecided cfg data s r) _ cfg.strobes_len ?_ a b hab hQ
    intro i x y _ hxy hx
    have := scan_cell_frame cfg data j i x y hxy s r (fun _ h => by omega)
    exact CellDecided_frame cfg data s r x y this.1 this.2 hx

theorem scan_rows_untouched (cfg : Config) (data : Data) (adc : List Nat) (st : ScanState)
    (hrun : scan_rows cfg data adc = some st) (s r : Nat)
    (hsc : scanned cfg data s r = false) : CellUntouched s r st := by
  unfold scan_rows at hrun
  refine for_range_opt_inv (CellUntouched s r) _ cfg.inputs_len ?_ _ st hrun ?_
  · intro j a b _ hab hP
    refine for_range_opt_inv (CellUntouched s r) _ cfg.strobes_len ?_ a b hab hP
    intro i x y _ hxy hx
    have := scan_cell_frame cfg data j i x y hxy s r (fun h1 h2 => by
      rw [h2.1, h2.2, hsc] at h1
      exact Bool.noConfusion h1)
    exact ⟨by rw [this.1, hx.1], by rw [this.2, hx.2]⟩
  · exact ⟨by simp, rfl⟩

theorem scan_rows_keys (cfg : Config) (data : Data) (adc : List Nat) (st : ScanState)
    (hrun : scan_rows cfg data adc = some st) (s r : Nat) : keys_of s r st.trace = [] := by
  unfold scan_rows at hrun
  refine for_range_opt_inv (fun st : ScanState => keys_of s r st.trace = []) _ cfg.inputs_len ?_ _ st hrun rfl
  intro j a b _ hab hP
  refine for_range_opt_inv (fun st : ScanState => keys_of s r st.trace = []) _ cfg.strobes_len ?_ a b hab hP
  intro i x y _ hxy hx
  simp only [scan_cell_keys cfg data j i x y hxy s r, hx]

/-! ## Sweeps -/

theorem kscan_ec_matrix_read_eq (cfg : Config) (data : Data) (adc : List Nat) (now : Nat)
    (st : ScanState) (h : scan_rows cfg data adc = some st) :
    kscan_ec_matrix_read cfg data adc now = some (confirm_and_report cfg data now st) := by
  simp [kscan_ec_matrix_read, h]

theorem DivSafe_congr (cfg : Config) (data data2 : Data)
    (h : data2.calibrations = data.calibrations) (hs : DivSafe cfg data) : DivSafe cfg data2 := by
  intro s r h1 h2 h3
  have e : calibration_entry_for_strobe_input cfg data2 s r
      = calibration_entry_for_strobe_input cfg data s r := by
    simp only [calibration_entry_for_strobe_input, h]
  have e2 : scanned cfg data2 s r = scanned cfg data s r := by
    simp only [scanned, e]
  rw [e]
  exact hs s r h1 h2 (e2 ▸ h3)

theorem scanned_congr (cfg : Config) (data data2 : Data)
    (h : data2.calibrations = data.calibrations) (s r : Nat) :
    scanned cfg data2 s r = scanned cfg data s r := by
  simp only [scanned, calibration_entry_for_strobe_input, h]

theorem scenario_DivSafe : DivSafe scenario_config scenario_data := by
  intro s r _ _ _
  simp only [calibration_entry_for_strobe_input, scenario_data]
  decide

theorem pressed_DivSafe : DivSafe scenario_config pressed_data := by
  intro s r _ _ _
  simp only [calibration_entry_for_strobe_input, pressed_data]
  decide

theorem masked_DivSafe : DivSafe masked_config scenario_data := by
  intro s r _ _ _
  simp only [calibration_entry_for_strobe_input, scenario_data]
  decide

/-- Claim C1 (two-scan confirmation).  In every sweep of `kscan_ec_matrix_read`
whose divisions are defined, from any driver data: for every strobe `s` the new
`reported_matrix_state[s]` is `rows[s] AND matrix_state[s]`, with `matrix_state[s]`
as it was before the sweep, and the new `matrix_state[s]` is `rows[s]`.  Hence a
bit of the new `reported_matrix_state` is set only if it is set in both of the
last two `matrix_state` snapshots, the one after and the one before the sweep. -/
theorem two_scan_confirmation (cfg : Config) (data : Data) (adc : List Nat) (now : Nat)
    (hsafe : DivSafe cfg data) :
    ∃ st out, scan_rows cfg data adc = some st ∧
      kscan_ec_matrix_read cfg data adc now = some out ∧
      ∀ s, s < cfg.strobes_len →
        out.data.reported_matrix_state s = st.rows s &&& data.matrix_state s ∧
        out.data.matrix_state s = st.rows s ∧
        ∀ r, (out.data.reported_matrix_state s).testBit r = true →
          (out.data.matrix_state s).testBit r = true ∧ (data.matrix_state s).testBit r = true := by
  obtain ⟨st, hst⟩ := scan_rows_total cfg data adc hsafe
  refine ⟨st, _, hst, kscan_ec_matrix_read_eq cfg data adc now st hst, ?_⟩
  intro s hs
  obtain ⟨h1, h2, -⟩ := confirm_and_report_spec cfg data now st s 0
  simp only [hs, if_true] at h1 h2
  refine ⟨h2, h1, ?_⟩
  intro r hr
  rw [h2, Nat.testBit_and] at hr
  rw [h1]
  simpa using hr

/-- Witness of claim C1: a sweep of the one-cell scenario matrix with the key
held, reading 700. -/
theorem two_scan_confirmation_witness :
    DivSafe scenario_config pressed_data ∧
    ∃ st out, scan_rows scenario_config pressed_data [700] = some st ∧
      kscan_ec_matrix_read scenario_config pressed_data [700] 1 = some out ∧
      ∀ s, s < scenario_config.strobes_len →
        out.data.reported_matrix_state s = st.rows s &&& pressed_data.matrix_state s ∧
        out.data.matrix_state s = st.rows s ∧
        ∀ r, (out.data.reported_matrix_state s).testBit r = true →
          (out.data.matrix_state s).testBit r = true ∧
          (pressed_data.matrix_state s).testBit r = true :=
  ⟨pressed_DivSafe, two_scan_confirmation scenario_config pressed_data [700] 1 pressed_DivSafe⟩

/-- Claim C3, evaluated at its failing input: in a one-cell matrix whose entry
has `avg_low = avg_high = 500` the cell passes both gates of the scan loop
(`avg_high` is not zero, the cell is not masked), the read is issued, and
`normalize` divides the reading 600 by `avg_high - avg_low = 0`: the cell and the
sweep run into the undefined division. -/
theorem degenerate_entry_is_read_and_divides_by_zero :
    (calibration_entry_for_strobe_input scenario_config degenerate_data 0 0).avg_high ≠ 0 ∧
    masked scenario_config 0 0 = false ∧
    normalize (read_raw_matrix_state [600]).1 500 500 = none ∧
    scan_cell scenario_config degenerate_data 0 0 { rows := fun _ => 0, adc := [600], trace := [] }
      = none ∧
    kscan_ec_matrix_read scenario_config degenerate_data [600] 1 = none := by
  refine ⟨by decide, by decide, by decide, ?_, ?_⟩
  · rfl
  · rfl

/-- Claim C5 (decision rule).  In a sweep whose divisions are defined, for every
cell `(s, r)` of the matrix that is calibrated (`avg_high` not zero) and not
masked: the cell is read once; with `prev` its bit in `matrix_state` before the
sweep, `buf` the normalised reading and `pl`, `rl` the press and release limits,
bit `r` of `rows[s]` is 1 if `buf > pl` and `prev = 0`, is 0 if `prev = 1` and
`buf < rl`, and is `prev` otherwise; in particular a cell with `prev = 1` keeps
its bit when `buf >= rl`. -/
theorem decision_rule (cfg : Config) (data : Data) (adc : List Nat)
    (hsafe : DivSafe cfg data) (s r : Nat) (hs : s < cfg.strobes_len) (hr : r < cfg.inputs_len)
    (hcal : (calibration_entry_for_strobe_input cfg data s r).avg_high ≠ 0)
    (hmask : masked cfg s r = false) :
    ∃ st raw buf pl rl, scan_rows cfg data adc = some st ∧
      reads_of s r st.trace = [Event.read s r raw] ∧
      normalize raw (calibration_entry_for_strobe_input cfg data s r).avg_low
        (calibration_entry_for_strobe_input cfg data s r).avg_high = some buf ∧
      press_limit (calibration_entry_for_strobe_input cfg data s r) cfg.trigger_percentage
        = some pl ∧
      release_limit (calibration_entry_for_strobe_input cfg data s r) cfg.trigger_percentage
        = some rl ∧
      (buf > pl ∧ (data.matrix_state s).testBit r = false → (st.rows s).testBit r = true) ∧
      ((data.matrix_state s).testBit r = true ∧ buf < rl → (st.rows s).testBit r = false) ∧
      (¬ (buf > pl ∧ (data.matrix_state s).testBit r = false) →
        ¬ ((data.matrix_state s).testBit r = true ∧ buf < rl) →
        (st.rows s).testBit r = (data.matrix_state s).testBit r) ∧
      ((data.matrix_state s).testBit r = true → rl ≤ buf → (st.rows s).testBit r = true) := by
  obtain ⟨st, hst⟩ := scan_rows_total cfg data adc hsafe
  have hsc : scanned cfg data s r = true := by simp [scanned, hcal, hmask]
  obtain ⟨raw, buf, pl, rl, a, b, c, d, e⟩ := scan_rows_decided cfg data adc st hst s r hs hr hsc
  refine ⟨st, raw, buf, pl, rl, hst, a, b, c, d, ?_, ?_, ?_, ?_⟩
  · intro h; rw [e]; simp [decision, h]
  · intro h; rw [e]
    simp only [decision, h.1, h.2]
    simp
  · intro h1 h2; rw [e]; simp only [decision, h1, h2, if_false]
  · intro h1 h2; rw [e]
    have : ¬ buf < rl := by omega
    simp [decision, h1, this]

/-- Witness of claim C5: the one-cell scenario matrix with the key held,
reading 500. -/
theorem decision_rule_witness :
    (DivSafe scenario_config pressed_data ∧ 0 < scenario_config.strobes_len ∧
      0 < scenario_config.inputs_len ∧
      (calibration_entry_for_strobe_input scenario_config pressed_data 0 0).avg_high ≠ 0 ∧
      masked scenario_config 0 0 = false) ∧
    ∃ st raw buf pl rl, scan_rows scenario_config pressed_data [500] = some st ∧
      reads_of 0 0 st.trace = [Event.read 0 0 raw] ∧
      normalize raw (calibration_entry_for_strobe_input scenario_config pressed_data 0 0).avg_low
        (calibration_entry_for_strobe_input scenario_config pressed_data 0 0).avg_high
          = some buf ∧
      press_limit (calibration_entry_for_strobe_input scenario_config pressed_data 0 0)
        scenario_config.trigger_percentage = some pl ∧
      release_limit (calibration_entry_for_strobe_input scenario_config pressed_data 0 0)
        scenario_config.trigger_percentage = some rl ∧
      (buf > pl ∧ (pressed_data.matrix_state 0).testBit 0 = false →
        (st.rows 0).testBit 0 = true) ∧
      ((pressed_data.matrix_state 0).testBit 0 = true ∧ buf < rl →
        (st.rows 0).testBit 0 = false) ∧
      (¬ (buf > pl ∧ (pressed_data.matrix_state 0).testBit 0 = false) →
        ¬ ((pressed_data.matrix_state 0).testBit 0 = true ∧ buf < rl) →
        (st.rows 0).testBit 0 = (pressed_data.matrix_state 0).testBit 0) ∧
      ((pressed_data.matrix_state 0).testBit 0 = true → rl ≤ buf →
        (st.rows 0).testBit 0 = true) :=
  ⟨⟨pressed_DivSafe, by decide, by decide, by decide, by decide⟩,
    decision_rule scenario_config pressed_data [500] pressed_DivSafe 0 0 (by decide) (by decide)
      (by decide) (by decide)⟩

/-- Claim C6 (release is immediate).  In a sweep whose divisions are defined,
for every cell `(s, r)` of the matrix: if bit `r` of the decision word `rows[s]`
is 0 then bit `r` of `reported_matrix_state[s]` is 0 after the sweep, and if the
reported bit was 1 before the sweep and a key callback is configured, the
callbacks of the sweep for the cell are exactly one call `(s, r, false)`. -/
theorem release_is_immediate (cfg : Config) (data : Data) (adc : List Nat) (now : Nat)
    (hsafe : DivSafe cfg data) (s r : Nat) (hs : s < cfg.strobes_len) (hr : r < cfg.inputs_len) :
    ∃ st out, scan_rows cfg data adc = some st ∧
      kscan_ec_matrix_read cfg data adc now = some out ∧
      ((st.rows s).testBit r = false →
        (out.data.reported_matrix_state s).testBit r = false ∧
        ((data.reported_matrix_state s).testBit r = true → data.callback.isSome = true →
          keys_of s r out.trace = [Event.key s r false])) := by
  obtain ⟨st, hst⟩ := scan_rows_total cfg data adc hsafe
  refine ⟨st, _, hst, kscan_ec_matrix_read_eq cfg data adc now st hst, ?_⟩
  intro hrow
  obtain ⟨-, h2, -, h4, -⟩ := confirm_and_report_spec cfg data now st s r
  simp only [hs, hr, if_true, and_self] at h2 h4
  have hdiff : (st.rows s &&& data.matrix_state s).testBit r = false := by
    rw [Nat.testBit_and, hrow]; rfl
  refine ⟨by rw [h2, hdiff], ?_⟩
  intro hrep hcb
  rw [h4, scan_rows_keys cfg data adc st hst s r, List.nil_append,
    key_event_for_changed _ _ _ _ _ hcb (by rw [hrep, hdiff]; decide), hdiff]

/-- Witness of claim C6: the one-cell scenario matrix with the key held and
reported, reading 150. -/
theorem release_is_immediate_witness :
    (DivSafe scenario_config pressed_data ∧ 0 < scenario_config.strobes_len ∧
      0 < scenario_config.inputs_len) ∧
    ∃ st out, scan_rows scenario_config pressed_data [150] = some st ∧
      kscan_ec_matrix_read scenario_config pressed_data [150] 1 = some out ∧
      ((st.rows 0).testBit 0 = false →
        (out.data.reported_matrix_state 0).testBit 0 = false ∧
        ((pressed_data.reported_matrix_state 0).testBit 0 = true →
          pressed_data.callback.isSome = true →
          keys_of 0 0 out.trace = [Event.key 0 0 false])) :=
  ⟨⟨pressed_DivSafe, by decide, by decide⟩,
    release_is_immediate scenario_config pressed_data [150] 1 pressed_DivSafe 0 0
      (by decide) (by decide)⟩

/-- Claim C7 (a press is delayed by one sweep).  With a key callback
configured, for a cell `(s, r)` of the matrix whose bits in `matrix_state` and
`reported_matrix_state` are 0, over two sweeps in a row whose divisions are
defined: if the decision of the first sweep sets the bit, the first sweep issues
no callback for the cell; if the decision of the second sweep keeps the bit set,
the second sweep issues exactly one callback `(s, r, true)`, and if it clears the
bit, the second sweep issues no callback for the cell either.  Scenarios with
`avg_low = 100`, `avg_high = 900`, `noise = 5`, trigger percentage 50: the reads
600, 700 give no callback and then a press; the reads 700, 150, 700, 700 give a
callback in the fourth sweep only, one press. -/
theorem press_is_delayed (cfg : Config) (data : Data) (adc : List Nat) (now1 now2 : Nat)
    (hsafe : DivSafe cfg data) (s r : Nat) (hs : s < cfg.strobes_len) (hr : r < cfg.inputs_len)
    (hcb : data.callback.isSome = true)
    (hms : (data.matrix_state s).testBit r = false)
    (hrep : (data.reported_matrix_state s).testBit r = false) :
    (∃ st1 out1 st2 out2, scan_rows cfg data adc = some st1 ∧
      kscan_ec_matrix_read cfg data adc now1 = some out1 ∧
      scan_rows cfg out1.data out1.adc = some st2 ∧
      kscan_ec_matrix_read cfg out1.data out1.adc now2 = some out2 ∧
      ((st1.rows s).testBit r = true →
        keys_of s r out1.trace = [] ∧
        ((st2.rows s).testBit r = true → keys_of s r out2.trace = [Event.key s r true]) ∧
        ((st2.rows s).testBit r = false → keys_of s r out2.trace = []))) ∧
    sweep_traces scenario_config scenario_data [600, 700] [1, 2]
      = some [[Event.read 0 0 600], [Event.read 0 0 700, Event.key 0 0 true]] ∧
    sweep_traces scenario_config scenario_data [700, 150, 700, 700] [1, 2, 3, 4]
      = some [[Event.read 0 0 700], [Event.read 0 0 150], [Event.read 0 0 700],
          [Event.read 0 0 700, Event.key 0 0 true]] := by
  refine ⟨?_, ?_, ?_⟩
  · obtain ⟨st1, hst1⟩ := scan_rows_total cfg data adc hsafe
    obtain ⟨a1, a2, -, a4, a5, a6, -⟩ := confirm_and_report_spec cfg data now1 st1 s r
    obtain ⟨st2, hst2⟩ := scan_rows_total cfg (confirm_and_report cfg data now1 st1).data
      (confirm_and_report cfg data now1 st1).adc (DivSafe_congr cfg data _ a5 hsafe)
    obtain ⟨-, -, -, b4, -⟩ := confirm_and_report_spec cfg
      (confirm_and_report cfg data now1 st1).data now2 st2 s r
    refine ⟨st1, _, st2, _, hst1, kscan_ec_matrix_read_eq cfg data adc now1 st1 hst1, hst2,
      kscan_ec_matrix_read_eq cfg _ _ now2 st2 hst2, ?_⟩
    intro hrow1
    simp only [hs, hr, if_true, and_self] at a1 a2 a4 b4
    have hd1 : (st1.rows s &&& data.matrix_state s).testBit r = false := by
      rw [Nat.testBit_and, hms]; simp
    rw [scan_rows_keys cfg data adc st1 hst1 s r, List.nil_append,
      key_event_for_same _ _ _ _ _ (by rw [hrep, hd1])] at a4
    rw [scan_rows_keys cfg _ _ st2 hst2 s r, List.nil_append, a6, a1, a2] at b4
    refine ⟨a4, ?_, ?_⟩
    · intro hrow2
      have hd2 : (st2.rows s &&& st1.rows s).testBit r = true := by
        rw [Nat.testBit_and, hrow1, hrow2]; rfl
      rw [b4, key_event_for_changed _ _ _ _ _ hcb (by rw [hd1, hd2]; decide), hd2]
    · intro hrow2
      have hd2 : (st2.rows s &&& st1.rows s).testBit r = false := by
        rw [Nat.testBit_and, hrow2]; rfl
      rw [b4, key_event_for_same _ _ _ _ _ (by rw [hd1, hd2])]
  · decide
  · decide

/-- Witness of claim C7: the one-cell scenario matrix, reads 600 and 700. -/
theorem press_is_delayed_witness :
    (DivSafe scenario_config scenario_data ∧ 0 < scenario_config.strobes_len ∧
      0 < scenario_config.inputs_len ∧ scenario_data.callback.isSome = true ∧
      (scenario_data.matrix_state 0).testBit 0 = false ∧
      (scenario_data.reported_matrix_state 0).testBit 0 = false) ∧
    (∃ st1 out1 st2 out2, scan_rows scenario_config scenario_data [600, 700] = some st1 ∧
      kscan_ec_matrix_read scenario_config scenario_data [600, 700] 1 = some out1 ∧
      scan_rows scenario_config out1.data out1.adc = some st2 ∧
      kscan_ec_matrix_read scenario_config out1.data out1.adc 2 = some out2 ∧
      ((st1.rows 0).testBit 0 = true →
        keys_of 0 0 out1.trace = [] ∧
        ((st2.rows 0).testBit 0 = true → keys_of 0 0 out2.trace = [Event.key 0 0 true]) ∧
        ((st2.rows 0).testBit 0 = false → keys_of 0 0 out2.trace = []))) ∧
    sweep_traces scenario_config scenario_data [600, 700] [1, 2]
      = some [[Event.read 0 0 600], [Event.read 0 0 700, Event.key 0 0 true]] ∧
    sweep_traces scenario_config scenario_data [700, 150, 700, 700] [1, 2, 3, 4]
      = some [[Event.read 0 0 700], [Event.read 0 0 150], [Event.read 0 0 700],
          [Event.read 0 0 700, Event.key 0 0 true]] :=
  ⟨⟨scenario_DivSafe, by decide, by decide, by decide, by decide, by decide⟩,
    press_is_delayed scenario_config scenario_data [600, 700] 1 2 scenario_DivSafe 0 0
      (by decide) (by decide) (by decide) (by decide) (by decide)⟩

theorem sweep_silent (cfg : Config) (data : Data) (adc : List Nat) (now : Nat)
    (hsafe : DivSafe cfg data) (s r : Nat) (hsc : scanned cfg data s r = false)
    (hms : (data.matrix_state s).testBit r = false)
    (hrep : (data.reported_matrix_state s).testBit r = false) :
    ∃ out, kscan_ec_matrix_read cfg data adc now = some out ∧
      reads_of s r out.trace = [] ∧ keys_of s r out.trace = [] ∧
      (out.data.matrix_state s).testBit r = false ∧
      (out.data.reported_matrix_state s).testBit r = false ∧
      out.data.calibrations = data.calibrations := by
  obtain ⟨st, hst⟩ := scan_rows_total cfg data adc hsafe
  obtain ⟨hrow, hreads⟩ := scan_rows_untouched cfg data adc st hst s r hsc
  obtain ⟨a1, a2, a3, a4, a5, -⟩ := confirm_and_report_spec cfg data now st s r
  have hd : (st.rows s &&& data.matrix_state s).testBit r = false := by
    rw [Nat.testBit_and, hrow]; rfl
  refine ⟨_, kscan_ec_matrix_read_eq cfg data adc now st hst, by rw [a3, hreads], ?_, ?_, ?_, a5⟩
  · rw [a4, scan_rows_keys cfg data adc st hst s r, List.nil_append,
      key_event_for_same _ _ _ _ _ (by rw [hrep, hd])]
    simp
  · rw [a1]; split_ifs
    · exact hrow
    · exact hms
  · rw [a2]; split_ifs
    · exact hd
    · exact hrep

/-- Claim C8 (masked and uncalibrated cells are silent).  For a cell `(s, r)`
that is masked or whose entry has `avg_high = 0`, and whose bits in
`matrix_state` and `reported_matrix_state` are 0 at the start (as they are
initially), over every run of sweeps with the calibration table unchanged and
every ADC stream: no read is issued for the cell, no key callback is issued for
it, and its bits in `matrix_state` and `reported_matrix_state` are still 0. -/
theorem masked_or_uncalibrated_silent (cfg : Config) (data : Data) (nows adc : List Nat)
    (hsafe : DivSafe cfg data) (s r : Nat)
    (hcell : masked cfg s r = true ∨ (calibration_entry_for_strobe_input cfg data s r).avg_high = 0)
    (hms : (data.matrix_state s).testBit r = false)
    (hrep : (data.reported_matrix_state s).testBit r = false) :
    ∃ out, run_sweeps cfg data adc nows = some out ∧
      reads_of s r out.trace = [] ∧ keys_of s r out.trace = [] ∧
      (out.data.matrix_state s).testBit r = false ∧
      (out.data.reported_matrix_state s).testBit r = false := by
  have hsc : scanned cfg data s r = false := by
    rcases hcell with h | h <;> simp [scanned, h]
  clear hcell
  induction nows generalizing data adc with
  | nil => exact ⟨_, rfl, rfl, rfl, hms, hrep⟩
  | cons now nows ih =>
    obtain ⟨o1, h1, r1, k1, m1, p1, c1⟩ := sweep_silent cfg data adc now hsafe s r hsc hms hrep
    obtain ⟨o2, h2, r2, k2, m2, p2⟩ := ih o1.data o1.adc (DivSafe_congr cfg data _ c1 hsafe) m1 p1
      (by rw [scanned_congr cfg data _ c1]; exact hsc)
    refine ⟨{ o2 with trace := o1.trace ++ o2.trace }, ?_, ?_, ?_, m2, p2⟩
    · simp only [run_sweeps, h1, h2]
    · simp only [reads_of_append, r1, r2, List.append_nil]
    · simp only [keys_of_append, k1, k2, List.append_nil]

/-- Witness of claim C8: a matrix of three strobes and four inputs with input
3 of strobe 2 masked, two sweeps on readings of 700. -/
theorem masked_or_uncalibrated_silent_witness :
    (DivSafe masked_config scenario_data ∧
      (masked masked_config 2 3 = true ∨
        (calibration_entry_for_strobe_input masked_config scenario_data 2 3).avg_high = 0) ∧
      (scenario_data.matrix_state 2).testBit 3 = false ∧
      (scenario_data.reported_matrix_state 2).testBit 3 = false) ∧
    ∃ out, run_sweeps masked_config scenario_data (List.replicate 22 700) [1, 2] = some out ∧
      reads_of 2 3 out.trace = [] ∧ keys_of 2 3 out.trace = [] ∧
      (out.data.matrix_state 2).testBit 3 = false ∧
      (out.data.reported_matrix_state 2).testBit 3 = false :=
  ⟨⟨masked_DivSafe, by decide, by decide, by decide⟩,
    masked_or_uncalibrated_silent masked_config scenario_data [1, 2] (List.replicate 22 700)
      masked_DivSafe 2 3 (Or.inl (by decide)) (by decide) (by decide)⟩

/-! ## Calibrator -/

/-- A cell of the second calibration phase with `noise = 0` whose two probes
reach the threshold runs into the division by zero of the SNR. -/
theorem calibrate_high_cell_zero_noise (cfg : Config) (cb : Option Nat) (s i : Nat)
    (st : CalibState) (hmask : masked cfg s i = false)
    (hhigh : (st.calibrations (calibration_index cfg s i)).avg_high = 0)
    (hnoise : (st.calibrations (calibration_index cfg s i)).noise = 0)
    (hres : 1 ≤ cfg.adc_resolution ∧ cfg.adc_resolution ≤ 31)
    (hp1 : ¬ (read_raw_matrix_state st.adc).1 < u16 ((2 ^ (cfg.adc_resolution - 1) : Nat) : Int))
    (hp2 : ¬ (read_raw_matrix_state (read_raw_matrix_state st.adc).2).1
      < u16 ((2 ^ (cfg.adc_resolution - 1) : Nat) : Int)) :
    calibrate_high_cell cfg cb s i st = none := by
  have h1 : ¬ (cfg.adc_resolution = 0 ∨ 31 < cfg.adc_resolution) := by omega
  have h2 : ¬ (st.calibrations (calibration_index cfg s i)).avg_high > 0 := by omega
  unfold calibrate_high_cell
  rw [if_neg (by simp [hmask])]
  dsimp only
  rw [if_neg h2, if_neg h1, if_neg hp1, if_neg hp2, if_pos hnoise]

/-- Claim C9, evaluated at its failing input: after a first calibration phase
whose twenty low samples are all 1000 the entry has `noise = 0`, and the second
phase, on two probes and twenty samples of 3000 with a 12-bit ADC, computes the
SNR with the denominator `noise = 0`: the pass runs into the undefined
division. -/
theorem zero_noise_snr_divides_by_zero :
    ((calibrate_low_phase scenario_config calibration_data quiet_adc).calibrations 0).noise = 0 ∧
    calibrate_high_pass scenario_config calibration_data.calibration_callback
      (calibrate_low_phase scenario_config calibration_data quiet_adc) = none := by
  constructor
  · decide
  · rfl

/-! ## Cadence governor -/

theorem cadence_ref_lt (cfg : Config) (h : cadence_in_range cfg) (last now : Nat) :
    cadence_ref cfg last now < 65536 := by
  obtain ⟨h1, h2, h3, -, -⟩ := h
  unfold cadence_ref
  split_ifs <;> assumption

/-- Claim C11 (cadence selection).  For a configuration whose cadence fields
hold 16-bit values, any driver data and any uptime `now`,
`kscan_ec_matrix_update_poll_interval` changes nothing but `poll_interval`, which
becomes `active_ms` if `last_key_released_at` is 0 and otherwise, with
`ms = (now - last_key_released_at) mod 2^32`, `sleep_ms` if
`ms > sleep_after_secs * 1000`, else `idle_ms` if `ms > idle_after_secs * 1000`,
else `active_ms`.  Scenario with `active_ms = 1`, `idle_ms = 5`,
`idle_after_secs = 5`, `sleep_after_secs = 300`: 6000 ms after a release the
interval is 5, and with `last_key_released_at = 0` it is 1. -/
theorem cadence_selection (cfg : Config) (data : Data) (now : Nat) (h : cadence_in_range cfg) :
    kscan_ec_matrix_update_poll_interval cfg data now
      = { data with poll_interval := cadence_ref cfg data.last_key_released_at now } ∧
    (kscan_ec_matrix_update_poll_interval scenario_config released_data 7000).poll_interval = 5 ∧
    (kscan_ec_matrix_update_poll_interval scenario_config scenario_data 7000).poll_interval
      = 1 := by
  refine ⟨?_, by decide, by decide⟩
  have hlt := cadence_ref_lt cfg h data.last_key_released_at now
  obtain ⟨-, -, -, h4, h5⟩ := h
  have e1 : u32 ((cfg.sleep_after_secs : Int) * 1000) = cfg.sleep_after_secs * 1000 := by
    unfold u32; omega
  have e2 : u32 ((cfg.idle_after_secs : Int) * 1000) = cfg.idle_after_secs * 1000 := by
    unfold u32; omega
  have key : (if data.last_key_released_at = 0 then cfg.active_polling_interval_ms
      else if u32 ((now : Int) - (data.last_key_released_at : Int))
          > u32 ((cfg.sleep_after_secs : Int) * 1000) then cfg.sleep_polling_interval_ms
      else if u32 ((now : Int) - (data.last_key_released_at : Int))
          > u32 ((cfg.idle_after_secs : Int) * 1000) then cfg.idle_polling_interval_ms
      else cfg.active_polling_interval_ms)
      = cadence_ref cfg data.last_key_released_at now := by
    rw [e1, e2]
    rfl
  unfold kscan_ec_matrix_update_poll_interval
  simp only [key]
  by_cases hne : cadence_ref cfg data.last_key_released_at now = data.poll_interval
  · simp only [hne, ne_eq, not_true_eq_false, if_false]
  · simp only [ne_eq, hne, not_false_eq_true, if_true]
    rw [u16_natCast_of_lt _ hlt]

/-- Witness of claim C11: the scenario configuration, a release at uptime 1000
and the uptime 7000. -/
theorem cadence_selection_witness :
    cadence_in_range scenario_config ∧
    (kscan_ec_matrix_update_poll_interval scenario_config released_data 7000
      = { released_data with
          poll_interval := cadence_ref scenario_config released_data.last_key_released_at 7000 } ∧
    (kscan_ec_matrix_update_poll_interval scenario_config released_data 7000).poll_interval = 5 ∧
    (kscan_ec_matrix_update_poll_interval scenario_config scenario_data 7000).poll_interval
      = 1) :=
  ⟨by unfold cadence_in_range; decide,
    cadence_selection scenario_config released_data 7000 (by unfold cadence_in_range; decide)⟩

/-! ## Configuration entry point -/

/-- Claim C16 (`configure` rejects a null callback).
`kscan_ec_matrix_configure` returns `-EINVAL` with the driver data unchanged if
and only if the callback is null; for a callback that is not null it returns 0
and stores the callback, leaving every other field unchanged. -/
theorem configure_rejects_null (data : Data) (callback : Option Nat) :
    (callback = none ↔
      ((kscan_ec_matrix_configure data callback).1 = -EINVAL ∧
        (kscan_ec_matrix_configure data callback).2 = data)) ∧
    (∀ cb, callback = some cb →
      kscan_ec_matrix_configure data callback = (0, { data with callback := some cb })) := by
  constructor
  · cases callback with
    | none => simp [kscan_ec_matrix_configure]
    | some cb => simp [kscan_ec_matrix_configure, EINVAL]
  · intro cb h
    subst h
    rfl

/-! ## Single-cell read sequence -/

/-- Counterexample to claim C17 as stated: with the default
`matrix_relax_us = 0` the read issues no relax wait between the configuration of
the input pin and the interrupt lock, so its trace is not the sequence of the
claim. -/
theorem read_sequence_without_relax_wait :
    scenario_config.matrix_relax_us = 0 ∧
    read_raw_matrix_state_actions scenario_config 0 0
      = [HwAction.gpio_pin_configure (Pin.input 0) GpioFlags.GPIO_INPUT, HwAction.irq_lock,
         HwAction.gpio_pin_set (Pin.strobe 0) 1, HwAction.k_busy_wait 0, HwAction.adc_read,
         HwAction.irq_unlock, HwAction.gpio_pin_set (Pin.strobe 0) 0,
         HwAction.gpio_pin_configure (Pin.input 0) GpioFlags.GPIO_DISCONNECTED] ∧
    read_raw_matrix_state_actions scenario_config 0 0
      ≠ read_sequence_ref scenario_config 0 0
          [HwAction.k_busy_wait scenario_config.matrix_relax_us] := by
  refine ⟨rfl, by decide, by decide⟩

/-- Claim C17, amended (single-cell read sequence).  For every configuration,
strobe and input the calls of `read_raw_matrix_state` are, in this order: input
pin configured as input, relax wait (only if `matrix_relax_us > 0`), interrupt
lock, drain release (only with a drain pin), strobe assert, settle wait, ADC
read, interrupt unlock, strobe deassert, drain engage (only with a drain pin),
input pin disconnect.  With `matrix_relax_us > 0` this is the sequence of the
claim.  There is one lock and one unlock; the strobe assert and the ADC read lie
between them and the strobe deassert comes after the unlock. -/
theorem single_cell_read_sequence (cfg : Config) (strobe input : Nat) :
    read_raw_matrix_state_actions cfg strobe input
      = read_sequence_ref cfg strobe input
          (if cfg.matrix_relax_us > 0 then [HwAction.k_busy_wait cfg.matrix_relax_us] else []) ∧
    (cfg.matrix_relax_us > 0 →
      read_raw_matrix_state_actions cfg strobe input
        = read_sequence_ref cfg strobe input [HwAction.k_busy_wait cfg.matrix_relax_us]) ∧
    ∃ pre mid post,
      read_raw_matrix_state_actions cfg strobe input
        = pre ++ [HwAction.irq_lock] ++ mid ++ [HwAction.irq_unlock] ++ post ∧
      HwAction.irq_lock ∉ pre ++ mid ++ post ∧ HwAction.irq_unlock ∉ pre ++ mid ++ post ∧
      HwAction.gpio_pin_set (Pin.strobe strobe) 1 ∈ mid ∧
      HwAction.gpio_pin_set (Pin.strobe strobe) 1 ∉ pre ++ post ∧
      HwAction.adc_read ∈ mid ∧ HwAction.adc_read ∉ pre ++ post ∧
      HwAction.gpio_pin_set (Pin.strobe strobe) 0 ∈ post ∧
      HwAction.gpio_pin_set (Pin.strobe strobe) 0 ∉ pre ++ mid := by
  have h1 : read_raw_matrix_state_actions cfg strobe input
      = read_sequence_ref cfg strobe input
          (if cfg.matrix_relax_us > 0 then [HwAction.k_busy_wait cfg.matrix_relax_us] else []) := by
    unfold read_raw_matrix_state_actions read_sequence_ref drain_release_ref drain_engage_ref
    cases cfg.drain_port <;> cases cfg.fake_open_drain <;> simp
  refine ⟨h1, ?_, ?_⟩
  · intro h
    rw [h1, if_pos h]
  · refine ⟨[HwAction.gpio_pin_configure (Pin.input input) GpioFlags.GPIO_INPUT]
        ++ (if cfg.matrix_relax_us > 0 then [HwAction.k_busy_wait cfg.matrix_relax_us] else []),
      drain_release_ref cfg ++ [HwAction.gpio_pin_set (Pin.strobe strobe) 1,
        HwAction.k_busy_wait cfg.adc_read_settle_us, HwAction.adc_read],
      [HwAction.gpio_pin_set (Pin.strobe strobe) 0] ++ drain_engage_ref cfg ++
        [HwAction.gpio_pin_configure (Pin.input input) GpioFlags.GPIO_DISCONNECTED], ?_, ?_⟩
    · rw [h1]
      simp [read_sequence_ref]
    · unfold drain_release_ref drain_engage_ref
      cases cfg.drain_port <;> cases cfg.fake_open_drain <;>
        by_cases h : cfg.matrix_relax_us > 0 <;> simp [h]

/-! ## Candidate test of the second calibration phase -/

/-- Counterexample to claim C15 as stated: with a 12-bit ADC, two probes
exactly equal to the threshold 2048 do not exceed it, yet the cell is sampled:
`avg_high` is written, `keys_to_complete` decremented and `POSITION_COMPLETE`
emitted. -/
theorem probe_equal_to_threshold_is_sampled :
    scenario_config.adc_resolution = 12 ∧
    nth_read threshold_probe_adc 0 = 2 ^ (12 - 1) ∧
    nth_read threshold_probe_adc 1 = 2 ^ (12 - 1) ∧
    (calibrate_high_cell scenario_config (some 2) 0 0 (low_done_state threshold_probe_adc)).map
      (fun st => (st.calibrations 0, st.keys_to_complete, st.events))
      = some ({ avg_low := 1000, avg_high := 3000, noise := 1 }, 0,
          [CalibrationEvent.POSITION_COMPLETE 1000 3000 2001 0 0 1]) := by
  refine ⟨rfl, by decide, by decide, by decide⟩

theorem high_threshold_eq (cfg : Config) (hres : 1 ≤ cfg.adc_resolution ∧ cfg.adc_resolution ≤ 16) :
    u16 ((2 ^ (cfg.adc_resolution - 1) : Nat) : Int) = 2 ^ (cfg.adc_resolution - 1) := by
  apply u16_natCast_of_lt
  calc 2 ^ (cfg.adc_resolution - 1) ≤ 2 ^ 15 := Nat.pow_le_pow_right (by decide) (by omega)
    _ < 65536 := by decide

/-- Claim C15, amended (candidate test of the second calibration phase).  For a
cell that is not masked and has `avg_high = 0`, with an ADC resolution of 1 to 16
bits and the threshold `2^(resolution - 1)`: if the first probe is below the
threshold, or the first is not below and the second is, the cell body only
consumes the probes: the calibration table, `keys_to_complete` and the events
are unchanged.  If both probes are at least the threshold and the noise of the
entry is not zero, the cell is sampled after the two probes: `avg_high` becomes
the mean of the samples, `noise` the maximum of the two noises,
`keys_to_complete` is decremented and `POSITION_COMPLETE` is emitted. -/
theorem phase2_candidate_test (cfg : Config) (cb : Option Nat) (s i : Nat) (st : CalibState)
    (hmask : masked cfg s i = false)
    (hhigh : (st.calibrations (calibration_index cfg s i)).avg_high = 0)
    (hres : 1 ≤ cfg.adc_resolution ∧ cfg.adc_resolution ≤ 16) :
    (nth_read st.adc 0 < 2 ^ (cfg.adc_resolution - 1) →
      calibrate_high_cell cfg cb s i st = some { st with adc := st.adc.drop 1 }) ∧
    (2 ^ (cfg.adc_resolution - 1) ≤ nth_read st.adc 0 →
      nth_read st.adc 1 < 2 ^ (cfg.adc_resolution - 1) →
      calibrate_high_cell cfg cb s i st = some { st with adc := st.adc.drop 2 }) ∧
    (2 ^ (cfg.adc_resolution - 1) ≤ nth_read st.adc 0 →
      2 ^ (cfg.adc_resolution - 1) ≤ nth_read st.adc 1 →
      (st.calibrations (calibration_index cfg s i)).noise ≠ 0 →
      calibrate_high_cell cfg cb s i st = some (high_sampled_state cfg cb s i st)) := by
  have h1 : ¬ (cfg.adc_resolution = 0 ∨ 31 < cfg.adc_resolution) := by omega
  have h2 : ¬ (st.calibrations (calibration_index cfg s i)).avg_high > 0 := by omega
  have hthr := high_threshold_eq cfg hres
  have hp1 : (read_raw_matrix_state st.adc).1 = nth_read st.adc 0 := by simp [nth_read]
  have hp2 : (read_raw_matrix_state (read_raw_matrix_state st.adc).2).1 = nth_read st.adc 1 := by
    simp [nth_read, read_raw_snd]
  have hd2 : (read_raw_matrix_state (read_raw_matrix_state st.adc).2).2 = st.adc.drop 2 := by
    simp [read_raw_snd]
  refine ⟨?_, ?_, ?_⟩
  · intro hlt
    unfold calibrate_high_cell
    rw [if_neg (by simp [hmask])]
    dsimp only
    rw [if_neg h2, if_neg h1, hthr, hp1, if_pos hlt, read_raw_snd]
  · intro hge hlt
    unfold calibrate_high_cell
    rw [if_neg (by simp [hmask])]
    dsimp only
    rw [if_neg h2, if_neg h1, hthr, hp1, if_neg (by omega), hp2, if_pos hlt, hd2]
  · intro hge1 hge2 hn
    unfold calibrate_high_cell high_sampled_state
    rw [if_neg (by simp [hmask])]
    dsimp only
    rw [if_neg h2, if_neg h1, hthr, hp1, if_neg (by omega), hp2, if_neg (by omega), if_neg hn, hd2]

/-- Witness of claim C15, amended: a 12-bit ADC and two probes of 3000. -/
theorem phase2_candidate_test_witness :
    (masked scenario_config 0 0 = false ∧
      ((low_done_state high_probe_adc).calibrations (calibration_index scenario_config 0 0)).avg_high
        = 0 ∧
      (1 ≤ scenario_config.adc_resolution ∧ scenario_config.adc_resolution ≤ 16)) ∧
    ((nth_read (low_done_state high_probe_adc).adc 0 < 2 ^ (scenario_config.adc_resolution - 1) →
      calibrate_high_cell scenario_config (some 2) 0 0 (low_done_state high_probe_adc)
        = some { low_done_state high_probe_adc with
                 adc := (low_done_state high_probe_adc).adc.drop 1 }) ∧
    (2 ^ (scenario_config.adc_resolution - 1) ≤ nth_read (low_done_state high_probe_adc).adc 0 →
      nth_read (low_done_state high_probe_adc).adc 1 < 2 ^ (scenario_config.adc_resolution - 1) →
      calibrate_high_cell scenario_config (some 2) 0 0 (low_done_state high_probe_adc)
        = some { low_done_state high_probe_adc with
                 adc := (low_done_state high_probe_adc).adc.drop 2 }) ∧
    (2 ^ (scenario_config.adc_resolution - 1) ≤ nth_read (low_done_state high_probe_adc).adc 0 →
      2 ^ (scenario_config.adc_resolution - 1) ≤ nth_read (low_done_state high_probe_adc).adc 1 →
      ((low_done_state high_probe_adc).calibrations (calibration_index scenario_config 0 0)).noise
        ≠ 0 →
      calibrate_high_cell scenario_config (some 2) 0 0 (low_done_state high_probe_adc)
        = some (high_sampled_state scenario_config (some 2) 0 0
            (low_done_state high_probe_adc)))) :=
  ⟨⟨by decide, by decide, by decide⟩,
    phase2_candidate_test scenario_config (some 2) 0 0 (low_done_state high_probe_adc)
      (by decide) (by decide) (by decide)⟩

/-! ## Release timestamp and consumer consistency -/

theorem report_bit_flags (cb : Option Nat) (diff s r : Nat) (st : ReportState) :
    ((report_bit cb diff s r st).have_change = true ↔
      st.have_change = true ∨ (st.reported_matrix_state s).testBit r ≠ diff.testBit r) ∧
    (report_bit cb diff s r st).have_keys = st.have_keys := by
  unfold report_bit
  rw [land_BIT_ne]
  by_cases h : (st.reported_matrix_state s).testBit r = diff.testBit r
  · simp [h]
  · simp [h]

theorem report_input_loop_flags (cb : Option Nat) (diff s : Nat) (st : ReportState) (n : Nat) :
    ((for_range n (report_bit cb diff s) st).have_change = true ↔
      st.have_change = true ∨
        ∃ r, r < n ∧ (st.reported_matrix_state s).testBit r ≠ diff.testBit r) ∧
    (for_range n (report_bit cb diff s) st).have_keys = st.have_keys := by
  induction n with
  | zero => simp [for_range]
  | succ n ih =>
    obtain ⟨ih1, ih2⟩ := ih
    obtain ⟨h1, h2⟩ := report_bit_flags cb diff s n (for_range n (report_bit cb diff s) st)
    have hrep := (report_input_loop cb diff s st 0 0 n).1
    simp only [for_range]
    refine ⟨?_, h2.trans ih2⟩
    rw [h1, ih1, hrep]
    constructor
    · rintro ((h | ⟨r, hr, h⟩) | h)
      · exact Or.inl h
      · exact Or.inr ⟨r, by omega, h⟩
      · exact Or.inr ⟨n, by omega, h⟩
    · rintro (h | ⟨r, hr, h⟩)
      · exact Or.inl (Or.inl h)
      · rcases Nat.lt_or_ge r n with hlt | hge
        · exact Or.inl (Or.inr ⟨r, hlt, h⟩)
        · have : r = n := by omega
          subst this
          exact Or.inr h

theorem report_strobe_loop_flags (cfg : Config) (cb : Option Nat) (diffs : Nat → Nat)
    (st : ReportState) (m : Nat) :
    ((for_range m (report_strobe cfg cb diffs) st).have_change = true ↔
      st.have_change = true ∨
        ∃ s r, s < m ∧ r < cfg.inputs_len ∧
          (st.reported_matrix_state s).testBit r ≠ (diffs s).testBit r) ∧
    ((for_range m (report_strobe cfg cb diffs) st).have_keys = true ↔
      st.have_keys = true ∨ ∃ s, s < m ∧ diffs s ≠ 0) := by
  induction m with
  | zero => simp [for_range]
  | succ m ih =>
    obtain ⟨ih1, ih2⟩ := ih
    obtain ⟨h1, h2⟩ := report_input_loop_flags cb (diffs m) m
      (for_range m (report_strobe cfg cb diffs) st) cfg.inputs_len
    have hrep := (report_strobe_loop cfg cb diffs st 0 0 m).1 m
    simp only [Nat.lt_irrefl, if_false] at hrep
    simp only [for_range, report_strobe]
    constructor
    · rw [h1, ih1, hrep]
      constructor
      · rintro ((h | ⟨s, r, hs, hr, h⟩) | ⟨r, hr, h⟩)
        · exact Or.inl h
        · exact Or.inr ⟨s, r, by omega, hr, h⟩
        · exact Or.inr ⟨m, r, by omega, hr, h⟩
      · rintro (h | ⟨s, r, hs, hr, h⟩)
        · exact Or.inl (Or.inl h)
        · rcases Nat.lt_or_ge s m with hlt | hge
          · exact Or.inl (Or.inr ⟨s, r, hlt, hr, h⟩)
          · have : s = m := by omega
            subst this
            exact Or.inr ⟨r, hr, h⟩
    · rw [Bool.or_eq_true, h2, ih2]
      constructor
      · rintro ((h | ⟨s, hs, h⟩) | h)
        · exact Or.inl h
        · exact Or.inr ⟨s, by omega, h⟩
        · exact Or.inr ⟨m, by omega, by simpa using h⟩
      · rintro (h | ⟨s, hs, h⟩)
        · exact Or.inl (Or.inl h)
        · rcases Nat.lt_or_ge s m with hlt | hge
          · exact Or.inl (Or.inr ⟨s, hlt, h⟩)
          · have : s = m := by omega
            subst this
            exact Or.inr (by simpa using h)

theorem confirm_and_report_timestamp (cfg : Config) (data : Data) (now : Nat) (st : ScanState) :
    (reported_changed cfg data.reported_matrix_state
        (confirm_and_report cfg data now st).data.reported_matrix_state →
      ¬ reported_keys cfg (confirm_and_report cfg data now st).data.reported_matrix_state →
      (confirm_and_report cfg data now st).data.last_key_released_at = u32 (now : Int)) ∧
    (reported_changed cfg data.reported_matrix_state
        (confirm_and_report cfg data now st).data.reported_matrix_state →
      reported_keys cfg (confirm_and_report cfg data now st).data.reported_matrix_state →
      (confirm_and_report cfg data now st).data.last_key_released_at = 0) ∧
    (¬ reported_changed cfg data.reported_matrix_state
        (confirm_and_report cfg data now st).data.reported_matrix_state →
      (confirm_and_report cfg data now st).data.last_key_released_at
        = data.last_key_released_at) := by
  have hrep : ∀ s, s < cfg.strobes_len →
      (confirm_and_report cfg data now st).data.reported_matrix_state s
        = st.rows s &&& data.matrix_state s := by
    intro s hs
    have := (confirm_and_report_spec cfg data now st s 0).2.1
    simpa [hs] using this
  have hl := latch_loop st.rows { diffs := fun _ => 0, matrix_state := data.matrix_state }
    cfg.strobes_len
  obtain ⟨f1, f2⟩ := report_strobe_loop_flags cfg data.callback
    (for_range cfg.strobes_len (latch_step st.rows)
      { diffs := fun _ => 0, matrix_state := data.matrix_state }).diffs
    { reported_matrix_state := data.reported_matrix_state
      have_change := false, have_keys := false, trace := st.trace } cfg.strobes_len
  simp only [Bool.false_eq_true, false_or] at f1 f2
  have hch : reported_changed cfg data.reported_matrix_state
      (confirm_and_report cfg data now st).data.reported_matrix_state ↔
      (for_range cfg.strobes_len (report_strobe cfg data.callback
        (for_range cfg.strobes_len (latch_step st.rows)
          { diffs := fun _ => 0, matrix_state := data.matrix_state }).diffs)
        { reported_matrix_state := data.reported_matrix_state
          have_change := false, have_keys := false, trace := st.trace }).have_change = true := by
    rw [f1]
    unfold reported_changed
    constructor
    · rintro ⟨s, r, hs, hr, h⟩
      refine ⟨s, r, hs, hr, ?_⟩
      rw [(hl s).1]
      simpa [hs, hrep s hs] using h
    · rintro ⟨s, r, hs, hr, h⟩
      refine ⟨s, r, hs, hr, ?_⟩
      rw [(hl s).1] at h
      simpa [hs, hrep s hs] using h
  have hk : reported_keys cfg (confirm_and_report cfg data now st).data.reported_matrix_state ↔
      (for_range cfg.strobes_len (report_strobe cfg data.callback
        (for_range cfg.strobes_len (latch_step st.rows)
          { diffs := fun _ => 0, matrix_state := data.matrix_state }).diffs)
        { reported_matrix_state := data.reported_matrix_state
          have_change := false, have_keys := false, trace := st.trace }).have_keys = true := by
    rw [f2]
    unfold reported_keys
    constructor
    · rintro ⟨s, hs, h⟩
      refine ⟨s, hs, ?_⟩
      rw [(hl s).1]
      simpa [hs, hrep s hs] using h
    · rintro ⟨s, hs, h⟩
      refine ⟨s, hs, ?_⟩
      rw [(hl s).1] at h
      simpa [hs, hrep s hs] using h
  rw [hch, hk]
  simp only [confirm_and_report]
  refine ⟨?_, ?_, ?_⟩
  · intro a b
    simp [a, b]
  · intro a b
    simp [a, b]
  · intro a
    simp [a]

/-- Claim C12 (release timestamp).  At the end of every sweep whose divisions
are defined: if some bit of a cell of the matrix differs between the reported
words before and after the sweep and the new reported words are all zero,
`last_key_released_at` is the uptime (as `uint32_t`); if some bit differs and a
new reported word is not zero, it is 0; if no bit differs it is unchanged. -/
theorem release_timestamp_update (cfg : Config) (data : Data) (adc : List Nat) (now : Nat)
    (hsafe : DivSafe cfg data) :
    ∃ out, kscan_ec_matrix_read cfg data adc now = some out ∧
      (reported_changed cfg data.reported_matrix_state out.data.reported_matrix_state →
        ¬ reported_keys cfg out.data.reported_matrix_state →
        out.data.last_key_released_at = u32 (now : Int)) ∧
      (reported_changed cfg data.reported_matrix_state out.data.reported_matrix_state →
        reported_keys cfg out.data.reported_matrix_state →
        out.data.last_key_released_at = 0) ∧
      (¬ reported_changed cfg data.reported_matrix_state out.data.reported_matrix_state →
        out.data.last_key_released_at = data.last_key_released_at) := by
  obtain ⟨st, hst⟩ := scan_rows_total cfg data adc hsafe
  exact ⟨_, kscan_ec_matrix_read_eq cfg data adc now st hst,
    confirm_and_report_timestamp cfg data now st⟩

/-- Witness of claim C12: the one-cell scenario matrix with the key held and
reported, reading 150 at uptime 7. -/
theorem release_timestamp_update_witness :
    DivSafe scenario_config pressed_data ∧
    ∃ out, kscan_ec_matrix_read scenario_config pressed_data [150] 7 = some out ∧
      (reported_changed scenario_config pressed_data.reported_matrix_state
          out.data.reported_matrix_state →
        ¬ reported_keys scenario_config out.data.reported_matrix_state →
        out.data.last_key_released_at = u32 ((7 : Nat) : Int)) ∧
      (reported_changed scenario_config pressed_data.reported_matrix_state
          out.data.reported_matrix_state →
        reported_keys scenario_config out.data.reported_matrix_state →
        out.data.last_key_released_at = 0) ∧
      (¬ reported_changed scenario_config pressed_data.reported_matrix_state
          out.data.reported_matrix_state →
        out.data.last_key_released_at = pressed_data.last_key_released_at) :=
  ⟨pressed_DivSafe, release_timestamp_update scenario_config pressed_data [150] 7 pressed_DivSafe⟩

theorem replay_testBit (trace : List Event) (rep : Nat → Nat) (s r : Nat) :
    ((replay rep trace) s).testBit r = last_pressed ((rep s).testBit r) (keys_of s r trace) := by
  induction trace generalizing rep with
  | nil => rfl
  | cons e t ih =>
    have hstep : replay rep (e :: t) = replay (replay_event rep e) t := rfl
    rw [hstep, ih]
    cases e with
    | read s1 r1 v =>
      simp [replay_event, keys_of, is_key_of]
    | key s1 r1 p =>
      by_cases h : s1 = s ∧ r1 = r
      · obtain ⟨h1, h2⟩ := h
        subst h1; subst h2
        simp [replay_event, keys_of, is_key_of, testBit_WRITE_BIT, last_pressed]
      · have hk : keys_of s r (Event.key s1 r1 p :: t) = keys_of s r t := by
          simp only [keys_of, List.filter_cons, is_key_of]
          by_cases h1 : s1 = s
          · have : r1 ≠ r := fun e => h ⟨h1, e⟩
            simp [this]
          · simp [h1]
        rw [hk]
        congr 1
        simp only [replay_event]
        by_cases h1 : s = s1
        · subst h1
          have : r ≠ r1 := fun e => h ⟨rfl, e.symm⟩
          simp [testBit_WRITE_BIT, this]
        · rw [Function.update_noteq h1]

/-- Claim C13 (consumer consistency).  With a key callback configured, in every
sweep whose divisions are defined, the key callbacks of the sweep for a cell
`(s, r)` are exactly one call `(s, r, new bit)` if the cell belongs to the matrix
and its reported bit differs between before and after the sweep, and none
otherwise; replaying the callbacks of the sweep onto the old reported words gives
the new reported bit of every cell of the matrix. -/
theorem consumer_consistency (cfg : Config) (data : Data) (adc : List Nat) (now : Nat)
    (hsafe : DivSafe cfg data) (hcb : data.callback.isSome = true) :
    ∃ out, kscan_ec_matrix_read cfg data adc now = some out ∧
      (∀ s r, keys_of s r out.trace =
        if s < cfg.strobes_len ∧ r < cfg.inputs_len ∧
            (data.reported_matrix_state s).testBit r ≠ (out.data.reported_matrix_state s).testBit r
        then [Event.key s r ((out.data.reported_matrix_state s).testBit r)] else []) ∧
      (∀ s r, s < cfg.strobes_len → r < cfg.inputs_len →
        ((replay data.reported_matrix_state out.trace) s).testBit r
          = (out.data.reported_matrix_state s).testBit r) := by
  obtain ⟨st, hst⟩ := scan_rows_total cfg data adc hsafe
  have hkeys : ∀ s r, keys_of s r (confirm_and_report cfg data now st).trace =
      if s < cfg.strobes_len ∧ r < cfg.inputs_len ∧
          (data.reported_matrix_state s).testBit r
            ≠ ((confirm_and_report cfg data now st).data.reported_matrix_state s).testBit r
      then [Event.key s r
        (((confirm_and_report cfg data now st).data.reported_matrix_state s).testBit r)]
      else [] := by
    intro s r
    obtain ⟨-, h2, -, h4, -⟩ := confirm_and_report_spec cfg data now st s r
    rw [h4, scan_rows_keys cfg data adc st hst s r, List.nil_append, h2]
    by_cases hs : s < cfg.strobes_len
    · by_cases hr : r < cfg.inputs_len
      · simp only [hs, hr, if_true, true_and, and_self]
        by_cases hd : (data.reported_matrix_state s).testBit r
            = (st.rows s &&& data.matrix_state s).testBit r
        · rw [key_event_for_same _ _ _ _ _ hd]
          simp only [ne_eq, hd, not_true_eq_false, if_false]
        · rw [key_event_for_changed _ _ _ _ _ hcb hd]
          simp only [ne_eq, hd, not_false_eq_true, if_true]
      · simp [hs, hr]
    · simp [hs]
  refine ⟨_, kscan_ec_matrix_read_eq cfg data adc now st hst, hkeys, ?_⟩
  intro s r hs hr
  rw [replay_testBit, hkeys s r]
  by_cases hd : (data.reported_matrix_state s).testBit r
      = ((confirm_and_report cfg data now st).data.reported_matrix_state s).testBit r
  · simp [hs, hr, hd, last_pressed]
  · simp [hs, hr, hd, last_pressed]

/-- Witness of claim C13: the one-cell scenario matrix with the key held and
reported, reading 150. -/
theorem consumer_consistency_witness :
    (DivSafe scenario_config pressed_data ∧ pressed_data.callback.isSome = true) ∧
    ∃ out, kscan_ec_matrix_read scenario_config pressed_data [150] 7 = some out ∧
      (∀ s r, keys_of s r out.trace =
        if s < scenario_config.strobes_len ∧ r < scenario_config.inputs_len ∧
            (pressed_data.reported_matrix_state s).testBit r
              ≠ (out.data.reported_matrix_state s).testBit r
        then [Event.key s r ((out.data.reported_matrix_state s).testBit r)] else []) ∧
      (∀ s r, s < scenario_config.strobes_len → r < scenario_config.inputs_len →
        ((replay pressed_data.reported_matrix_state out.trace) s).testBit r
          = (out.data.reported_matrix_state s).testBit r) :=
  ⟨⟨pressed_DivSafe, by decide⟩,
    consumer_consistency scenario_config pressed_data [150] 7 pressed_DivSafe (by decide)⟩

/-! ## Ordering within a sweep -/

theorem range_succ_flatMap {β : Type} (n : Nat) (f : Nat → List β) :
    (List.range (n + 1)).flatMap f = (List.range n).flatMap f ++ f n := by
  rw [List.range_succ, List.flatMap_append]
  simp

theorem for_range_append {σ β : Type} (proj : σ → List β) (g : Nat → List β)
    (body : Nat → σ → σ) (n : Nat)
    (h : ∀ i st, i < n → proj (body i st) = proj st ++ g i) (st : σ) :
    proj (for_range n body st) = proj st ++ (List.range n).flatMap g := by
  induction n with
  | zero => simp [for_range]
  | succ n ih =>
    simp only [for_range]
    rw [h n _ (Nat.lt_succ_self n), ih (fun i st hi => h i st (Nat.lt_succ_of_lt hi)),
      range_succ_flatMap, List.append_assoc]

theorem for_range_opt_append {σ β : Type} (proj : σ → List β) (g : Nat → List β)
    (body : Nat → σ → Option σ) (n : Nat)
    (h : ∀ i st st', i < n → body i st = some st' → proj st' = proj st ++ g i) (st st' : σ)
    (hrun : for_range_opt n body st = some st') :
    proj st' = proj st ++ (List.range n).flatMap g := by
  induction n generalizing st' with
  | zero =>
    simp only [for_range_opt, Option.some.injEq] at hrun
    subst hrun
    simp
  | succ n ih =>
    simp only [for_range_opt] at hrun
    cases hmid : for_range_opt n body st with
    | none => simp [hmid] at hrun
    | some mid =>
      rw [hmid] at hrun
      rw [h n mid st' (Nat.lt_succ_self n) hrun,
        ih (fun i a b hi => h i a b (Nat.lt_succ_of_lt hi)) mid hmid,
        range_succ_flatMap, List.append_assoc]

theorem scan_cell_cells (cfg : Config) (data : Data) (r s : Nat) (st st' : ScanState)
    (hrun : scan_cell cfg data r s st = some st') :
    st'.trace.map event_cell
      = st.trace.map event_cell ++ (if scanned cfg data s r then [(s, r)] else []) ∧
    ((∀ e, e ∈ st.trace → is_read e = true) → ∀ e, e ∈ st'.trace → is_read e = true) := by
  cases hsc : scanned cfg data s r
  · rw [scan_cell_skipped cfg data r s st hsc] at hrun
    simp only [Option.some.injEq] at hrun
    subst hrun
    simp
  · obtain ⟨buf, pl, rl, -, -, -, e⟩ := scan_cell_scanned cfg data r s st st' hsc hrun
    subst e
    constructor
    · simp [scan_cell_result, event_cell]
    · intro h e he
      simp only [scan_cell_result, List.mem_append, List.mem_singleton] at he
      rcases he with he | he
      · exact h e he
      · subst he; rfl

theorem scan_rows_cells (cfg : Config) (data : Data) (adc : List Nat) (st : ScanState)
    (hrun : scan_rows cfg data adc = some st) :
    st.trace.map event_cell = scanned_cells cfg data ∧ ∀ e, e ∈ st.trace → is_read e = true := by
  unfold scan_rows at hrun
  constructor
  · have := for_range_opt_append (fun st : ScanState => st.trace.map event_cell)
      (fun r => (List.range cfg.strobes_len).flatMap (fun s =>
        if scanned cfg data s r then [(s, r)] else []))
      _ cfg.inputs_len (fun r a b _ hab =>
        for_range_opt_append (fun st : ScanState => st.trace.map event_cell)
          (fun s => if scanned cfg data s r then [(s, r)] else [])
          _ cfg.strobes_len (fun s x y _ hxy => (scan_cell_cells cfg data r s x y hxy).1)
          a b hab) _ st hrun
    simpa [scanned_cells] using this
  · refine for_range_opt_inv (fun st : ScanState => ∀ e, e ∈ st.trace → is_read e = true)
      _ cfg.inputs_len ?_ _ st hrun (by simp)
    intro r a b _ hab hP
    refine for_range_opt_inv (fun st : ScanState => ∀ e, e ∈ st.trace → is_read e = true)
      _ cfg.strobes_len ?_ a b hab hP
    intro s x y _ hxy hx
    exact (scan_cell_cells cfg data r s x y hxy).2 hx

theorem report_bit_trace (cb : Option Nat) (diff s r : Nat) (st : ReportState) :
    (report_bit cb diff s r st).trace
      = st.trace ++ key_event_for cb (st.reported_matrix_state s) diff s r := by
  unfold report_bit key_event_for
  rw [land_BIT_ne, land_BIT_ne_zero]
  cases hch : (st.reported_matrix_state s).testBit r != diff.testBit r
  · simp
  · cases hcb : cb.isSome <;> simp

theorem report_input_loop_trace (cb : Option Nat) (diff s : Nat) (st : ReportState) (n : Nat) :
    (for_range n (report_bit cb diff s) st).trace
      = st.trace ++ (List.range n).flatMap
          (fun r => key_event_for cb (st.reported_matrix_state s) diff s r) := by
  induction n with
  | zero => simp [for_range]
  | succ n ih =>
    simp only [for_range]
    rw [report_bit_trace, ih, (report_input_loop cb diff s st 0 0 n).1, range_succ_flatMap,
      List.append_assoc]

theorem report_strobe_loop_trace (cfg : Config) (cb : Option Nat) (diffs : Nat → Nat)
    (st : ReportState) (m : Nat) :
    (for_range m (report_strobe cfg cb diffs) st).trace
      = st.trace ++ (List.range m).flatMap (fun s =>
          (List.range cfg.inputs_len).flatMap
            (fun r => key_event_for cb (st.reported_matrix_state s) (diffs s) s r)) := by
  induction m with
  | zero => simp [for_range]
  | succ m ih =>
    have hrep := (report_strobe_loop cfg cb diffs st 0 0 m).1 m
    simp only [Nat.lt_irrefl, if_false] at hrep
    simp only [for_range, report_strobe]
    rw [report_input_loop_trace, ih, hrep, range_succ_flatMap, List.append_assoc]

theorem confirm_and_report_trace (cfg : Config) (data : Data) (now : Nat) (st : ScanState) :
    (confirm_and_report cfg data now st).trace
      = st.trace ++ key_events cfg data.callback data.reported_matrix_state
          (fun s => st.rows s &&& data.matrix_state s) := by
  have hl := latch_loop st.rows { diffs := fun _ => 0, matrix_state := data.matrix_state }
    cfg.strobes_len
  simp only [confirm_and_report]
  rw [report_strobe_loop_trace]
  congr 1
  unfold key_events
  apply List.flatMap_congr
  intro s hs
  have hs' : s < cfg.strobes_len := List.mem_range.mp hs
  rw [(hl s).1]
  simp [hs']

theorem mem_scanned_cells (cfg : Config) (data : Data) (s r : Nat) :
    (s, r) ∈ scanned_cells cfg data ↔
      s < cfg.strobes_len ∧ r < cfg.inputs_len ∧ scanned cfg data s r = true := by
  unfold scanned_cells
  simp only [List.mem_flatMap, List.mem_range]
  constructor
  · rintro ⟨r1, hr1, s1, hs1, h⟩
    by_cases hsc : scanned cfg data s1 r1 = true
    · simp only [hsc, if_true, List.mem_singleton, Prod.mk.injEq] at h
      obtain ⟨h1, h2⟩ := h
      subst h1; subst h2
      exact ⟨hs1, hr1, hsc⟩
    · simp [hsc] at h
  · rintro ⟨hs, hr, hsc⟩
    exact ⟨r, hr, s, hs, by simp [hsc]⟩

theorem pairwise_scanned_cells (cfg : Config) (data : Data) :
    List.Pairwise input_major_lt (scanned_cells cfg data) := by
  unfold scanned_cells
  rw [List.pairwise_flatMap]
  constructor
  · intro r _
    rw [List.pairwise_flatMap]
    constructor
    · intro s _
      split_ifs <;> simp
    · refine List.Pairwise.imp ?_ (List.pairwise_lt_range cfg.strobes_len)
      intro s1 s2 hlt x hx y hy
      split_ifs at hx hy <;> simp only [List.mem_singleton, List.not_mem_nil] at hx hy
      subst hx; subst hy
      exact Or.inr ⟨rfl, hlt⟩
  · refine List.Pairwise.imp ?_ (List.pairwise_lt_range cfg.inputs_len)
    intro r1 r2 hlt x hx y hy
    simp only [List.mem_flatMap, List.mem_range] at hx hy
    obtain ⟨s1, -, hx⟩ := hx
    obtain ⟨s2, -, hy⟩ := hy
    split_ifs at hx hy <;> simp only [List.mem_singleton, List.not_mem_nil] at hx hy
    subst hx; subst hy
    exact Or.inl hlt

theorem key_event_for_cases (cb : Option Nat) (rep diff s r : Nat) :
    key_event_for cb rep diff s r = [] ∨
    key_event_for cb rep diff s r = [Event.key s r (diff.testBit r)] := by
  unfold key_event_for
  split_ifs
  · exact Or.inr rfl
  · exact Or.inl rfl

theorem mem_key_event_for (cb : Option Nat) (rep diff s r : Nat) (e : Event)
    (h : e ∈ key_event_for cb rep diff s r) : e = Event.key s r (diff.testBit r) := by
  rcases key_event_for_cases cb rep diff s r with h1 | h1 <;> rw [h1] at h <;> simp at h
  exact h

theorem key_events_are_keys (cfg : Config) (cb : Option Nat) (rep diffs : Nat → Nat) (e : Event)
    (h : e ∈ key_events cfg cb rep diffs) : is_read e = false := by
  unfold key_events at h
  simp only [List.mem_flatMap, List.mem_range] at h
  obtain ⟨s, -, r, -, h⟩ := h
  rw [mem_key_event_for _ _ _ _ _ _ h]
  rfl

theorem pairwise_key_events (cfg : Config) (cb : Option Nat) (rep diffs : Nat → Nat) :
    List.Pairwise strobe_major_lt ((key_events cfg cb rep diffs).map event_cell) := by
  rw [List.pairwise_map]
  unfold key_events
  rw [List.pairwise_flatMap]
  constructor
  · intro s _
    rw [List.pairwise_flatMap]
    constructor
    · intro r _
      rcases key_event_for_cases cb (rep s) (diffs s) s r with h | h <;> rw [h] <;> simp
    · refine List.Pairwise.imp ?_ (List.pairwise_lt_range cfg.inputs_len)
      intro r1 r2 hlt x hx y hy
      rw [mem_key_event_for _ _ _ _ _ _ hx, mem_key_event_for _ _ _ _ _ _ hy]
      exact Or.inr ⟨rfl, hlt⟩
  · refine List.Pairwise.imp ?_ (List.pairwise_lt_range cfg.strobes_len)
    intro s1 s2 hlt x hx y hy
    simp only [List.mem_flatMap, List.mem_range] at hx hy
    obtain ⟨r1, -, hx⟩ := hx
    obtain ⟨r2, -, hy⟩ := hy
    rw [mem_key_event_for _ _ _ _ _ _ hx, mem_key_event_for _ _ _ _ _ _ hy]
    exact Or.inl hlt

/-- Claim C14 (ordering within a sweep).  The trace of a sweep whose divisions
are defined is the reads of the read phase followed by the key callbacks: every
callback comes after the last read.  The cells read are strictly increasing in
the (input, strobe) order and are exactly the cells of the matrix that are not
masked and have `avg_high` not zero; the cells of the callbacks are strictly
increasing in the (strobe, input) order. -/
theorem sweep_ordering (cfg : Config) (data : Data) (adc : List Nat) (now : Nat)
    (hsafe : DivSafe cfg data) :
    ∃ st out keys, scan_rows cfg data adc = some st ∧
      kscan_ec_matrix_read cfg data adc now = some out ∧
      out.trace = st.trace ++ keys ∧
      (∀ e, e ∈ st.trace → is_read e = true) ∧
      (∀ e, e ∈ keys → is_read e = false) ∧
      List.Pairwise input_major_lt (st.trace.map event_cell) ∧
      (∀ s r, (s, r) ∈ st.trace.map event_cell ↔
        s < cfg.strobes_len ∧ r < cfg.inputs_len ∧ masked cfg s r = false ∧
          (calibration_entry_for_strobe_input cfg data s r).avg_high ≠ 0) ∧
      List.Pairwise strobe_major_lt (keys.map event_cell) := by
  obtain ⟨st, hst⟩ := scan_rows_total cfg data adc hsafe
  obtain ⟨hcells, hreads⟩ := scan_rows_cells cfg data adc st hst
  refine ⟨st, _, _, hst, kscan_ec_matrix_read_eq cfg data adc now st hst,
    confirm_and_report_trace cfg data now st, hreads,
    fun e he => key_events_are_keys _ _ _ _ e he, ?_, ?_, pairwise_key_events _ _ _ _⟩
  · rw [hcells]
    exact pairwise_scanned_cells cfg data
  · intro s r
    rw [hcells, mem_scanned_cells]
    simp only [scanned, Bool.and_eq_true, decide_eq_true_eq, Bool.not_eq_true', ne_eq]
    tauto

/-- Witness of claim C14: the matrix of three strobes and four inputs with one
masked cell, readings of 700. -/
theorem sweep_ordering_witness :
    DivSafe masked_config scenario_data ∧
    ∃ st out keys, scan_rows masked_config scenario_data (List.replicate 11 700) = some st ∧
      kscan_ec_matrix_read masked_config scenario_data (List.replicate 11 700) 1 = some out ∧
      out.trace = st.trace ++ keys ∧
      (∀ e, e ∈ st.trace → is_read e = true) ∧
      (∀ e, e ∈ keys → is_read e = false) ∧
      List.Pairwise input_major_lt (st.trace.map event_cell) ∧
      (∀ s r, (s, r) ∈ st.trace.map event_cell ↔
        s < masked_config.strobes_len ∧ r < masked_config.inputs_len ∧
          masked masked_config s r = false ∧
          (calibration_entry_for_strobe_input masked_config scenario_data s r).avg_high ≠ 0) ∧
      List.Pairwise strobe_major_lt (keys.map event_cell) :=
  ⟨masked_DivSafe,
    sweep_ordering masked_config scenario_data (List.replicate 11 700) 1 masked_DivSafe⟩

/-! ## Release of a held key -/

/-- Claim C18, evaluated at its failing input: for `avg_low = 1000`,
`avg_high = 1800`, `noise = 0` and the accepted trigger percentage 89 the release
limit is 0; a held key whose reading is `avg_low` (normalised reading 0) keeps
decision bit 1, and over three such sweeps no release is reported. -/
theorem fully_released_key_stays_pressed :
    ((0 : Nat) < 1000 ∧ (1000 : Nat) < 1800 ∧ (0 : Nat) < 1800 - 1000 ∧ 11 ≤ 89 ∧ 89 ≤ 89) ∧
    release_limit { avg_low := 1000, avg_high := 1800, noise := 0 } 89 = some 0 ∧
    normalize 1000 1000 1800 = some 0 ∧
    (scan_rows stuck_config stuck_data [1000]).map (fun st => (st.rows 0).testBit 0)
      = some true ∧
    sweep_traces stuck_config stuck_data [1000, 1000, 1000] [1, 2, 3]
      = some [[Event.read 0 0 1000], [Event.read 0 0 1000], [Event.read 0 0 1000]] := by
  refine ⟨by decide, by decide, by decide, by decide, by decide⟩

/-- The release limit is positive when the press margin and the hysteresis
buffer together stay below the range `avg_high - avg_low`. -/
theorem release_limit_pos_of_margin (c : CalibrationEntry) (tp : Nat)
    (hlt : c.avg_low < c.avg_high) (hhi : c.avg_high < 65536) (htp : tp ≤ 89)
    (hmargin : MAX ((c.avg_high - c.avg_low) * tp / 100) c.noise
      + MAX ((c.avg_high - c.avg_low) / 8) c.noise < c.avg_high - c.avg_low) :
    ∃ rl, release_limit c tp = some rl ∧ 0 < rl := by
  have hr := range_eq c hlt hhi
  have hprod : u32 (((c.avg_high - c.avg_low : Nat) : Int) * (tp : Int))
      = (c.avg_high - c.avg_low) * tp := by
    have hb : (c.avg_high - c.avg_low) * tp ≤ 65535 * 89 := Nat.mul_le_mul (by omega) htp
    rw [← Nat.cast_mul]
    exact u32_natCast_of_lt _ (by omega)
  have hprl : press_limit_raw c tp
      = c.avg_high - MAX ((c.avg_high - c.avg_low) * tp / 100) c.noise := by
    unfold press_limit_raw
    rw [hr, hprod, u16_natCast_of_lt _ (by omega)]
    unfold u16; omega
  have hh : hys_buffer c = MAX ((c.avg_high - c.avg_low) / 8) c.noise := by
    unfold hys_buffer
    rw [hr, u16_natCast_of_lt _ (by omega)]
  have hrel : u16 ((press_limit_raw c tp : Int) - (hys_buffer c : Int))
      = press_limit_raw c tp - hys_buffer c := by
    rw [hprl, hh]
    unfold u16; omega
  refine ⟨normalize_ref (press_limit_raw c tp - hys_buffer c) c.avg_low c.avg_high, ?_, ?_⟩
  · unfold release_limit
    rw [hrel]
    exact normalize_eq_ref _ _ _ hlt hhi
  · have h0 : normalize_ref c.avg_low c.avg_low c.avg_high = 0 := by
      simp [normalize_ref]
    have := normalize_ref_strict c.avg_low c.avg_high c.avg_low
      (press_limit_raw c tp - hys_buffer c) hlt hhi (by rw [hprl, hh]; omega)
      (by rw [hprl, hh]; omega) hlt
    omega

end EcMatrix
